import Mathlib

/-!
Verification of the rumur AST / semantic layer against its specification.

Each section shallowly embeds one component of the C++ source:

* the symbol table (librumur/include/rumur/Symtab.h),
* the rule flattener (librumur/src/Rule.cc),
* node construction and the numbering pass (librumur/include/rumur/Node.h),
* deep cloning and structural equality (librumur/src/Rule.cc,
  librumur/src/Function.cc, librumur/src/Decl.cc),
* return-statement validation (librumur/src/Function.cc, librumur/src/Rule.cc),
* the SMT expression translator (rumur/src/smt/translate.cc).

C++ heap objects are modelled either by an explicit store (a list of cells
addressed by index) or by value trees in which every object carries the
allocation identity it has on the C++ heap; machine pointers are those
addresses / identities.  Fallible operations return Option or Except.
-/

set_option maxHeartbeats 1600000

namespace Rumur

/-! ## Symbol table: librumur/include/rumur/Symtab.h

The table is `std::vector<std::unordered_map<std::string, Ptr<Node>>> scope`,
the back of the vector being the innermost scope.  We model the vector with a
list whose HEAD is the innermost scope, an unordered_map with an association
list whose insert replaces an existing key in place, and `Ptr<Node>` with an
address into an explicit heap of node cells.  A node cell keeps its dynamic
type (`kind`, what `dynamic_cast<U*>` tests) and its structural content
(`data`); `clone()` allocates a fresh cell with the same content. -/

/-- A heap cell for a declaration node: dynamic type tag plus structural
content. -/
structure NodeV where
  kind : Nat
  data : Nat
deriving DecidableEq, Repr

/-- The C++ heap: cells addressed by list index; allocation appends. -/
structure Heap where
  cells : List NodeV
deriving DecidableEq, Repr

/-- Dereference an address. -/
def Heap.read (h : Heap) (a : Nat) : Option NodeV := h.cells[a]?

/-- `new` / `clone()`: allocate a fresh cell holding `v`, returning its
address. -/
def Heap.alloc (h : Heap) (v : NodeV) : Nat × Heap :=
  (h.cells.length, ⟨h.cells ++ [v]⟩)

/-- Mutate the object at address `a` (writing through a pointer). -/
def Heap.write (h : Heap) (a : Nat) (v : NodeV) : Heap :=
  ⟨h.cells.set a v⟩

/-- One scope: an association list from names to node addresses, standing for
`std::unordered_map<std::string, Ptr<Node>>`. -/
abbrev Scope := List (String × Nat)

/-- `map.find(name)`. -/
def scopeFind : Scope → String → Option Nat
  | [], _ => none
  | (k, a) :: rest, name => if k = name then some a else scopeFind rest name

/-- `map[name] = value`: replaces the binding if the key is present, inserts
otherwise. -/
def scopeInsert : Scope → String → Nat → Scope
  | [], name, a => [(name, a)]
  | (k, b) :: rest, name, a =>
      if k = name then (k, a) :: rest else (k, b) :: scopeInsert rest name a

/-- The symbol table: a stack of scopes, head innermost. -/
structure Symtab where
  scope : List Scope
deriving DecidableEq, Repr

/-- `Symtab::open_scope`: push an empty scope. -/
def Symtab.open_scope (st : Symtab) : Symtab := ⟨[] :: st.scope⟩

/-- `Symtab::close_scope`: pop the innermost scope; `assert(!scope.empty())`
is modelled as failure on an empty stack. -/
def Symtab.close_scope (st : Symtab) : Option Symtab :=
  match st.scope with
  | [] => none
  | _ :: rest => some ⟨rest⟩

/-- `Symtab::declare(name, const Ptr<Node>&)` (Symtab.h lines 31-34):
`scope.back()[name] = value`.  The only failure is the
`assert(!scope.empty())`; an existing binding of `name` in the topmost scope
is silently replaced. -/
def Symtab.declare (st : Symtab) (name : String) (a : Nat) : Option Symtab :=
  match st.scope with
  | [] => none
  | top :: rest => some ⟨scopeInsert top name a :: rest⟩

/-- `Symtab::declare(name, const std::shared_ptr<Node>&)` (Symtab.h lines
36-38): `declare(name, Ptr<Node>(value->clone()))` — a fresh clone of the
argument is stored, never the argument itself.  Fails if the argument is a
dangling address or no scope is open. -/
def Symtab.declareClone (st : Symtab) (h : Heap) (name : String) (a : Nat) :
    Option (Symtab × Heap) :=
  match h.read a with
  | none => none
  | some v =>
      let (a2, h2) := h.alloc v
      match st.declare name a2 with
      | none => none
      | some st2 => some (st2, h2)

/-- `Symtab::is_global_scope`: exactly one scope open. -/
def Symtab.is_global_scope (st : Symtab) : Bool := st.scope.length == 1

/-- The loop body of `Symtab::lookup<U>` (Symtab.h lines 40-53): walk scopes
from the innermost outward; on the first scope containing `name`, if the
stored node's dynamic type is the expected one, return a clone of it,
otherwise `break` out of the loop and throw "unknown symbol"; if no scope
binds `name`, throw "unknown symbol". -/
def lookupScopes (scopes : List Scope) (h : Heap) (kind : Nat) (name : String) :
    Except String (Nat × Heap) :=
  match scopes with
  | [] => .error ("unknown symbol: " ++ name)
  | s :: rest =>
      match scopeFind s name with
      | none => lookupScopes rest h kind name
      | some a =>
          match h.read a with
          | some v =>
              if v.kind = kind then .ok (h.alloc v)
              else .error ("unknown symbol: " ++ name)
          | none => .error ("unknown symbol: " ++ name)

/-- `Symtab::lookup<U>(name, loc)`. -/
def Symtab.lookup (st : Symtab) (h : Heap) (kind : Nat) (name : String) :
    Except String (Nat × Heap) :=
  lookupScopes st.scope h kind name

/-- The structural content a lookup hands back, with the fresh address and the
post-allocation heap stripped off. -/
def Symtab.lookupContent (st : Symtab) (h : Heap) (kind : Nat) (name : String) :
    Except String NodeV :=
  match st.lookup h kind name with
  | .ok (a, h2) =>
      match h2.read a with
      | some v => .ok v
      | none => .error "invalid address"
  | .error e => .error e

/-- The innermost binding of `name`, regardless of kind: what the source's
scope walk finds before the `dynamic_cast` test. -/
def firstBinding : List Scope → String → Option Nat
  | [], _ => none
  | s :: rest, name =>
      match scopeFind s name with
      | none => firstBinding rest name
      | some a => some a

theorem scopeFind_scopeInsert_self (s : Scope) (name : String) (a : Nat) :
    scopeFind (scopeInsert s name a) name = some a := by
  induction s with
  | nil => simp [scopeInsert, scopeFind]
  | cons hd tl ih =>
    obtain ⟨k, b⟩ := hd
    by_cases hk : k = name
    · simp [scopeInsert, hk, scopeFind]
    · simp [scopeInsert, hk, scopeFind, ih]

theorem scopeFind_scopeInsert_other (s : Scope) (name m : String) (a : Nat)
    (hm : m ≠ name) : scopeFind (scopeInsert s name a) m = scopeFind s m := by
  have hnm : ¬ name = m := fun h => hm h.symm
  induction s with
  | nil => simp [scopeInsert, scopeFind, hnm]
  | cons hd tl ih =>
    obtain ⟨k, b⟩ := hd
    by_cases hk : k = name
    · subst hk
      simp [scopeInsert, scopeFind, hnm]
    · by_cases hkm : k = m
      · subst hkm
        simp [scopeInsert, hk, hnm, scopeFind]
      · simp [scopeInsert, hk, scopeFind, hkm, ih]

theorem lookupScopes_firstBinding (scopes : List Scope) (h : Heap) (kind : Nat)
    (name : String) :
    lookupScopes scopes h kind name =
      match firstBinding scopes name with
      | none => .error ("unknown symbol: " ++ name)
      | some a =>
          match h.read a with
          | some v =>
              if v.kind = kind then .ok (h.alloc v)
              else .error ("unknown symbol: " ++ name)
          | none => .error ("unknown symbol: " ++ name) := by
  induction scopes with
  | nil => simp [lookupScopes, firstBinding]
  | cons s rest ih =>
    simp only [lookupScopes, firstBinding]
    cases scopeFind s name with
    | none => simpa using ih
    | some a => rfl

/-- Claim C2, counterexample.  The claim states that `declare(name, decl)`
raises a "duplicate declaration" failure when the topmost scope already binds
`name`.  The source (Symtab.h lines 31-34) has no such check:
`scope.back()[name] = value` silently rebinds.  Concretely, declaring "x" at
address 1 into a table whose only (topmost) scope already binds "x" to
address 0 succeeds and rebinds, rather than failing. -/
theorem C2_declare_no_duplicate_error :
    Symtab.declare ⟨[[("x", 0)]]⟩ "x" 1 = some ⟨[[("x", 1)]]⟩ := by decide

/-- Claim C2, amended: `declare(name, decl)` always binds `name` in the
topmost scope; if that scope already binds `name` the binding is silently
replaced (there is no "duplicate declaration" failure — the only failure mode
is that no scope is open); the new binding shadows any binding of the same
name in outer scopes, and bindings of other names are unaffected. -/
theorem C2_declare_rebinds (st : Symtab) (name m : String) (a : Nat)
    (top : Scope) (rest : List Scope) (hs : st.scope = top :: rest) :
    ∃ st2, st.declare name a = some st2
      ∧ st2.scope = scopeInsert top name a :: rest
      ∧ firstBinding st2.scope name = some a
      ∧ (m ≠ name → firstBinding st2.scope m = firstBinding st.scope m) := by
  refine ⟨⟨scopeInsert top name a :: rest⟩, ?_, rfl, ?_, ?_⟩
  · simp [Symtab.declare, hs]
  · simp [firstBinding, scopeFind_scopeInsert_self]
  · intro hm
    simp only [firstBinding, hs, scopeFind_scopeInsert_other top name m a hm]

/-- Witness for C2_declare_rebinds. -/
theorem C2_declare_rebinds_witness :
    ∃ st2, Symtab.declare ⟨[[("x", 0)]]⟩ "x" 1 = some st2
      ∧ st2.scope = scopeInsert [("x", 0)] "x" 1 :: []
      ∧ firstBinding st2.scope "x" = some 1
      ∧ ("y" ≠ "x" →
          firstBinding st2.scope "y" =
            firstBinding (Symtab.mk [[("x", 0)]]).scope "y") :=
  C2_declare_rebinds ⟨[[("x", 0)]]⟩ "x" "y" 1 [("x", 0)] [] rfl

/-- Claim C6: `lookup(name, expected_kind, loc)` searches scopes from the
innermost outward and stops at the first scope binding `name`: if that
binding's declaration has the expected kind, a (clone of) it is returned;
if it has a different kind the search stops — outer scopes are not
consulted — and "unknown symbol" is raised; if no scope binds `name`,
"unknown symbol" is raised.  The result depends only on the innermost
binding (`firstBinding`), which is exactly the "outer scopes are not
consulted" behaviour. -/
theorem C6_lookup_first_binding_only (st : Symtab) (h : Heap) (kind : Nat)
    (name : String) :
    (firstBinding st.scope name = none →
      st.lookup h kind name = .error ("unknown symbol: " ++ name))
    ∧ (∀ a v, firstBinding st.scope name = some a → h.read a = some v →
        (v.kind = kind → st.lookup h kind name = .ok (h.alloc v))
        ∧ (v.kind ≠ kind →
            st.lookup h kind name = .error ("unknown symbol: " ++ name))) := by
  refine ⟨fun hb => ?_, fun a v hb hr => ⟨fun hk => ?_, fun hk => ?_⟩⟩
  · rw [Symtab.lookup, lookupScopes_firstBinding, hb]
  · rw [Symtab.lookup, lookupScopes_firstBinding, hb]
    simp [hr, hk]
  · rw [Symtab.lookup, lookupScopes_firstBinding, hb]
    simp [hr, hk]

/-- Witness for C6_lookup_first_binding_only: exercises all three behaviours
on concrete tables.  In the mismatch case the inner scope binds "x" to a node
of kind 2 while the OUTER scope binds "x" to a node of the expected kind 1;
lookup still fails, confirming the search stops at the first binding. -/
theorem C6_lookup_first_binding_only_witness :
    (Symtab.lookup ⟨[[("y", 0)]]⟩ ⟨[⟨1, 5⟩]⟩ 1 "x" =
      .error ("unknown symbol: " ++ "x"))
    ∧ (Symtab.lookup ⟨[[("x", 0)]]⟩ ⟨[⟨1, 5⟩]⟩ 1 "x" =
        .ok ((Heap.mk [⟨1, 5⟩]).alloc ⟨1, 5⟩))
    ∧ (Symtab.lookup ⟨[[("x", 0)], [("x", 1)]]⟩ ⟨[⟨2, 7⟩, ⟨1, 5⟩]⟩ 1 "x" =
        .error ("unknown symbol: " ++ "x")) :=
  ⟨(C6_lookup_first_binding_only ⟨[[("y", 0)]]⟩ ⟨[⟨1, 5⟩]⟩ 1 "x").1 (by decide),
   ((C6_lookup_first_binding_only ⟨[[("x", 0)]]⟩ ⟨[⟨1, 5⟩]⟩ 1 "x").2
      0 ⟨1, 5⟩ (by decide) (by decide)).1 (by decide),
   ((C6_lookup_first_binding_only ⟨[[("x", 0)], [("x", 1)]]⟩ ⟨[⟨2, 7⟩, ⟨1, 5⟩]⟩
      1 "x").2 0 ⟨2, 7⟩ (by decide) (by decide)).2 (by decide)⟩

/-- Claim C9: `Symtab::lookup` returns a fresh clone of the stored
declaration on every call (`std::shared_ptr<U>(ret->clone())`), and the
`shared_ptr` overload of `declare` stores a clone of its argument
(`Ptr<Node>(value->clone())`).  Consequently: the address a lookup returns
is freshly allocated and distinct from the stored one; its content is
structurally equal to the stored node; mutating the object a lookup returned
leaves the table's stored binding unchanged, and a later lookup still
returns the original content; and the `declare` clone-overload binds a fresh
address, not its argument's. -/
theorem C9_lookup_returns_fresh_clone (st : Symtab) (h : Heap) (kind : Nat)
    (name : String) (a : Nat) (v : NodeV)
    (hb : firstBinding st.scope name = some a)
    (hr : h.read a = some v) (hk : v.kind = kind) :
    st.lookup h kind name = .ok (h.cells.length, ⟨h.cells ++ [v]⟩)
    ∧ h.cells.length ≠ a
    ∧ (Heap.mk (h.cells ++ [v])).read h.cells.length = some v
    ∧ (∀ w,
        ((Heap.mk (h.cells ++ [v])).write h.cells.length w).read a = some v)
    ∧ (∀ w,
        st.lookupContent ((Heap.mk (h.cells ++ [v])).write h.cells.length w)
          kind name = .ok v)
    ∧ (∀ n2 st2 h3, st.declareClone h n2 a = some (st2, h3) →
        h3 = ⟨h.cells ++ [v]⟩
          ∧ firstBinding st2.scope n2 = some h.cells.length) := by
  have ha : a < h.cells.length := by
    have := hr
    rw [Heap.read] at this
    exact (List.getElem?_eq_some.mp this).1
  have hread : ∀ w,
      ((Heap.mk (h.cells ++ [v])).write h.cells.length w).read a = some v := by
    intro w
    rw [Heap.write, Heap.read]
    rw [List.getElem?_set_ne (by omega), List.getElem?_append, if_pos ha]
    exact hr
  refine ⟨?_, by omega, ?_, hread, ?_, ?_⟩
  · rw [Symtab.lookup, lookupScopes_firstBinding, hb]
    simp [hr, hk, Heap.alloc]
  · rw [Heap.read]
    exact List.getElem?_concat_length h.cells v
  · intro w
    have hw := hread w
    rw [Heap.read] at hw
    rw [Symtab.lookupContent, Symtab.lookup, lookupScopes_firstBinding, hb]
    simp [Heap.read, hw, hk, Heap.alloc, List.getElem?_concat_length]
  · intro n2 st2 h3 hd
    rw [Symtab.declareClone, hr] at hd
    simp only [Heap.alloc] at hd
    cases hsc : st.scope with
    | nil =>
      rw [Symtab.declare, hsc] at hd
      simp at hd
    | cons top rest =>
      rw [Symtab.declare, hsc] at hd
      simp only [Option.some.injEq, Prod.mk.injEq] at hd
      obtain ⟨hst2, hh3⟩ := hd
      refine ⟨hh3.symm, ?_⟩
      rw [← hst2]
      simp [firstBinding, scopeFind_scopeInsert_self]

/-- Witness for C9_lookup_returns_fresh_clone: a table with one scope binding
"x" to address 0, a heap with one cell of kind 1.  The lookup returns
address 1 (fresh), not address 0. -/
theorem C9_lookup_returns_fresh_clone_witness :
    Symtab.lookup ⟨[[("x", 0)]]⟩ ⟨[⟨1, 5⟩]⟩ 1 "x" =
        .ok ((Heap.mk [⟨1, 5⟩]).cells.length, ⟨(Heap.mk [⟨1, 5⟩]).cells ++ [⟨1, 5⟩]⟩)
      ∧ (Heap.mk [⟨1, 5⟩]).cells.length ≠ 0 :=
  ⟨(C9_lookup_returns_fresh_clone ⟨[[("x", 0)]]⟩ ⟨[⟨1, 5⟩]⟩ 1 "x" 0 ⟨1, 5⟩
      (by decide) (by decide) (by decide)).1,
   (C9_lookup_returns_fresh_clone ⟨[[("x", 0)]]⟩ ⟨[⟨1, 5⟩]⟩ 1 "x" 0 ⟨1, 5⟩
      (by decide) (by decide) (by decide)).2.1⟩

/-! ## SMT translation: rumur/src/smt/translate.cc

The translator is a read-only expression visitor writing into a string
buffer; `Unsupported` exceptions abort the whole translation, so the
buffer-plus-exceptions traversal is modelled as a recursive function into
`Except`.  The expression grammar mirrors the visitor's cases.  An `exprid`
carries the textual name and the `unique_id` of the declaration its resolved
back-link (`n.value`) points at; a `field` carries the `unique_id` of its
record expression's resolved type (`n.record->type()->resolve()`), which
`visit_field` mangles to name the accessor function. -/

/-- The expression grammar the SMT translator visits (translate.cc lines
35-144). -/
inductive SmtExpr where
  | add (lhs rhs : SmtExpr)
  | andE (lhs rhs : SmtExpr)
  | element (array index : SmtExpr)
  | exprid (id : String) (valueUid : Nat)
  | eq (lhs rhs : SmtExpr)
  | existsE (quantName : String) (expr : SmtExpr)
  | div (lhs rhs : SmtExpr)
  | field (record : SmtExpr) (fieldName : String) (recordTypeUid : Nat)
  | forallE (quantName : String) (expr : SmtExpr)
  | functionCall (name : String) (funcUid : Nat) (args : List SmtExpr)
  | geq (lhs rhs : SmtExpr)
  | gt (lhs rhs : SmtExpr)
  | implication (lhs rhs : SmtExpr)
  | isundefined (rhs : SmtExpr)
  | leq (lhs rhs : SmtExpr)
  | lt (lhs rhs : SmtExpr)
  | mod (lhs rhs : SmtExpr)
  | mul (lhs rhs : SmtExpr)
  | negative (rhs : SmtExpr)
  | neq (lhs rhs : SmtExpr)
  | number (value : Int)
  | notE (rhs : SmtExpr)
  | orE (lhs rhs : SmtExpr)
  | sub (lhs rhs : SmtExpr)
  | ternary (cond lhs rhs : SmtExpr)

/-- The `Unsupported` exception thrown by the translator: a failure kind
distinct from producing output. -/
inductive SmtFailure where
  | unsupported
deriving DecidableEq, Repr

/-- Modelled from the spec: the logic layer (smt/logic.h, not under src/)
"selects the symbol for +, <, ÷, mod, etc." — the functions `add()`,
`div()`, `geq()`, `gt()`, `leq()`, `lt()`, `mod()`, `mul()`, `neg()`,
`sub()` and `numeric_literal()` called by translate.cc.  We abstract it as
a record of the selected symbols. -/
structure Logic where
  addSym : String
  divSym : String
  geqSym : String
  gtSym : String
  leqSym : String
  ltSym : String
  modSym : String
  mulSym : String
  negSym : String
  subSym : String
  numericLiteral : Int → String

/-- `tolower` applied to each character (translate.cc lines 153-158). -/
def lowerStr (s : String) : String := ⟨s.data.map Char.toLower⟩

/-- `mangle(s, id)` (translate.cc lines 160-178).  The debug `suffix` is the
constant `false ? ... : ""`, i.e. always empty. -/
def mangle (s : String) (id : Nat) : String :=
  let suffix := ""
  let l := lowerStr s
  if l = "true" ∨ l = "false" then l ++ suffix
  else if l = "boolean" then "Bool" ++ suffix
  else "s" ++ toString id ++ suffix

/-- Emission of a unary s-expression; an `Unsupported` thrown while visiting
the operand aborts the emission. -/
def emit1 (pre : String) (a : Except SmtFailure String) :
    Except SmtFailure String :=
  match a with
  | .ok sa => .ok ("(" ++ pre ++ " " ++ sa ++ ")")
  | .error u => .error u

/-- Emission of a binary s-expression; the left operand is visited first. -/
def emit2 (pre : String) (a b : Except SmtFailure String) :
    Except SmtFailure String :=
  match a, b with
  | .ok sa, .ok sb => .ok ("(" ++ pre ++ " " ++ sa ++ " " ++ sb ++ ")")
  | .error u, _ => .error u
  | _, .error u => .error u

/-- Emission of a ternary s-expression. -/
def emit3 (pre : String) (a b c : Except SmtFailure String) :
    Except SmtFailure String :=
  match a, b, c with
  | .ok sa, .ok sb, .ok sc =>
      .ok ("(" ++ pre ++ " " ++ sa ++ " " ++ sb ++ " " ++ sc ++ ")")
  | .error u, _, _ => .error u
  | _, .error u, _ => .error u
  | _, _, .error u => .error u

/-- `smt::translate(expr)` (translate.cc lines 147-151) together with the
`Translator` visitor (lines 15-145).  `visit_exists`, `visit_forall`,
`visit_functioncall` and `visit_isundefined` throw `Unsupported` without
visiting their children; every other case emits an s-expression built from
its recursively translated children. -/
def translate (L : Logic) : SmtExpr → Except SmtFailure String
  | .add l r => emit2 L.addSym (translate L l) (translate L r)
  | .andE l r => emit2 "and" (translate L l) (translate L r)
  | .element a i => emit2 "select" (translate L a) (translate L i)
  | .exprid id valueUid => .ok (mangle id valueUid)
  | .eq l r => emit2 "=" (translate L l) (translate L r)
  | .existsE _ _ => .error .unsupported
  | .div l r => emit2 L.divSym (translate L l) (translate L r)
  | .field rec fieldName recordTypeUid =>
      emit1 (mangle "" recordTypeUid ++ "_" ++ fieldName) (translate L rec)
  | .forallE _ _ => .error .unsupported
  | .functionCall _ _ _ => .error .unsupported
  | .geq l r => emit2 L.geqSym (translate L l) (translate L r)
  | .gt l r => emit2 L.gtSym (translate L l) (translate L r)
  | .implication l r => emit2 "=>" (translate L l) (translate L r)
  | .isundefined _ => .error .unsupported
  | .leq l r => emit2 L.leqSym (translate L l) (translate L r)
  | .lt l r => emit2 L.ltSym (translate L l) (translate L r)
  | .mod l r => emit2 L.modSym (translate L l) (translate L r)
  | .mul l r => emit2 L.mulSym (translate L l) (translate L r)
  | .negative r => emit1 L.negSym (translate L r)
  | .neq l r =>
      match translate L l, translate L r with
      | .ok sl, .ok sr => .ok ("(not (= " ++ sl ++ " " ++ sr ++ "))")
      | .error u, _ => .error u
      | _, .error u => .error u
  | .number v => .ok (L.numericLiteral v)
  | .notE r => emit1 "not" (translate L r)
  | .orE l r => emit2 "or" (translate L l) (translate L r)
  | .sub l r => emit2 L.subSym (translate L l) (translate L r)
  | .ternary c l r => emit3 "ite" (translate L c) (translate L l) (translate L r)

/-- Whether an expression contains an `Exists`, `Forall` or `FunctionCall`
subexpression (the constructs claim C7 is about; `isundefined` is NOT
counted). -/
def hasQuantOrCall : SmtExpr → Bool
  | .existsE _ _ => true
  | .forallE _ _ => true
  | .functionCall _ _ _ => true
  | .add l r => hasQuantOrCall l || hasQuantOrCall r
  | .andE l r => hasQuantOrCall l || hasQuantOrCall r
  | .element a i => hasQuantOrCall a || hasQuantOrCall i
  | .exprid _ _ => false
  | .eq l r => hasQuantOrCall l || hasQuantOrCall r
  | .div l r => hasQuantOrCall l || hasQuantOrCall r
  | .field rec _ _ => hasQuantOrCall rec
  | .geq l r => hasQuantOrCall l || hasQuantOrCall r
  | .gt l r => hasQuantOrCall l || hasQuantOrCall r
  | .implication l r => hasQuantOrCall l || hasQuantOrCall r
  | .isundefined r => hasQuantOrCall r
  | .leq l r => hasQuantOrCall l || hasQuantOrCall r
  | .lt l r => hasQuantOrCall l || hasQuantOrCall r
  | .mod l r => hasQuantOrCall l || hasQuantOrCall r
  | .mul l r => hasQuantOrCall l || hasQuantOrCall r
  | .negative r => hasQuantOrCall r
  | .neq l r => hasQuantOrCall l || hasQuantOrCall r
  | .number _ => false
  | .notE r => hasQuantOrCall r
  | .orE l r => hasQuantOrCall l || hasQuantOrCall r
  | .sub l r => hasQuantOrCall l || hasQuantOrCall r
  | .ternary c l r =>
      hasQuantOrCall c || hasQuantOrCall l || hasQuantOrCall r

theorem emit1_error (pre : String) (a : Except SmtFailure String)
    (h : a = .error .unsupported) : emit1 pre a = .error .unsupported := by
  rw [h]; rfl

theorem emit2_error (pre : String) (a b : Except SmtFailure String)
    (h : a = .error .unsupported ∨ b = .error .unsupported) :
    emit2 pre a b = .error .unsupported := by
  rcases h with h | h <;> rw [h] <;> cases a <;> cases b <;>
    simp_all [emit2]

theorem emit3_error (pre : String) (a b c : Except SmtFailure String)
    (h : a = .error .unsupported ∨ b = .error .unsupported
        ∨ c = .error .unsupported) :
    emit3 pre a b c = .error .unsupported := by
  rcases h with h | h | h <;> rw [h] <;> cases a <;> cases b <;> cases c <;>
    simp_all [emit3]

theorem translate_error_of_hasQuantOrCall (L : Logic) :
    ∀ e : SmtExpr, hasQuantOrCall e = true →
      translate L e = .error .unsupported
  | .existsE _ _, _ => rfl
  | .forallE _ _, _ => rfl
  | .functionCall _ _ _, _ => rfl
  | .isundefined _, _ => rfl
  | .exprid _ _, h => by simp [hasQuantOrCall] at h
  | .number _, h => by simp [hasQuantOrCall] at h
  | .add l r, h => emit2_error _ _ _ (by
      simp only [hasQuantOrCall, Bool.or_eq_true] at h
      exact h.imp (translate_error_of_hasQuantOrCall L l)
        (translate_error_of_hasQuantOrCall L r))
  | .andE l r, h => emit2_error _ _ _ (by
      simp only [hasQuantOrCall, Bool.or_eq_true] at h
      exact h.imp (translate_error_of_hasQuantOrCall L l)
        (translate_error_of_hasQuantOrCall L r))
  | .element a i, h => emit2_error _ _ _ (by
      simp only [hasQuantOrCall, Bool.or_eq_true] at h
      exact h.imp (translate_error_of_hasQuantOrCall L a)
        (translate_error_of_hasQuantOrCall L i))
  | .eq l r, h => emit2_error _ _ _ (by
      simp only [hasQuantOrCall, Bool.or_eq_true] at h
      exact h.imp (translate_error_of_hasQuantOrCall L l)
        (translate_error_of_hasQuantOrCall L r))
  | .div l r, h => emit2_error _ _ _ (by
      simp only [hasQuantOrCall, Bool.or_eq_true] at h
      exact h.imp (translate_error_of_hasQuantOrCall L l)
        (translate_error_of_hasQuantOrCall L r))
  | .field rec _ _, h => emit1_error _ _
      (translate_error_of_hasQuantOrCall L rec (by
        simpa [hasQuantOrCall] using h))
  | .geq l r, h => emit2_error _ _ _ (by
      simp only [hasQuantOrCall, Bool.or_eq_true] at h
      exact h.imp (translate_error_of_hasQuantOrCall L l)
        (translate_error_of_hasQuantOrCall L r))
  | .gt l r, h => emit2_error _ _ _ (by
      simp only [hasQuantOrCall, Bool.or_eq_true] at h
      exact h.imp (translate_error_of_hasQuantOrCall L l)
        (translate_error_of_hasQuantOrCall L r))
  | .implication l r, h => emit2_error _ _ _ (by
      simp only [hasQuantOrCall, Bool.or_eq_true] at h
      exact h.imp (translate_error_of_hasQuantOrCall L l)
        (translate_error_of_hasQuantOrCall L r))
  | .leq l r, h => emit2_error _ _ _ (by
      simp only [hasQuantOrCall, Bool.or_eq_true] at h
      exact h.imp (translate_error_of_hasQuantOrCall L l)
        (translate_error_of_hasQuantOrCall L r))
  | .lt l r, h => emit2_error _ _ _ (by
      simp only [hasQuantOrCall, Bool.or_eq_true] at h
      exact h.imp (translate_error_of_hasQuantOrCall L l)
        (translate_error_of_hasQuantOrCall L r))
  | .mod l r, h => emit2_error _ _ _ (by
      simp only [hasQuantOrCall, Bool.or_eq_true] at h
      exact h.imp (translate_error_of_hasQuantOrCall L l)
        (translate_error_of_hasQuantOrCall L r))
  | .mul l r, h => emit2_error _ _ _ (by
      simp only [hasQuantOrCall, Bool.or_eq_true] at h
      exact h.imp (translate_error_of_hasQuantOrCall L l)
        (translate_error_of_hasQuantOrCall L r))
  | .negative r, h => emit1_error _ _
      (translate_error_of_hasQuantOrCall L r (by
        simpa [hasQuantOrCall] using h))
  | .notE r, h => emit1_error _ _
      (translate_error_of_hasQuantOrCall L r (by
        simpa [hasQuantOrCall] using h))
  | .orE l r, h => emit2_error _ _ _ (by
      simp only [hasQuantOrCall, Bool.or_eq_true] at h
      exact h.imp (translate_error_of_hasQuantOrCall L l)
        (translate_error_of_hasQuantOrCall L r))
  | .sub l r, h => emit2_error _ _ _ (by
      simp only [hasQuantOrCall, Bool.or_eq_true] at h
      exact h.imp (translate_error_of_hasQuantOrCall L l)
        (translate_error_of_hasQuantOrCall L r))
  | .neq l r, h => by
      simp only [hasQuantOrCall, Bool.or_eq_true] at h
      rw [translate]
      rcases h with hx | hx
      · rw [translate_error_of_hasQuantOrCall L l hx]
        cases htr : translate L r with
        | ok s => rfl
        | error u => rfl
      · rw [translate_error_of_hasQuantOrCall L r hx]
        cases htl : translate L l with
        | ok s => rfl
        | error u => cases u; rfl
  | .ternary c l r, h => emit3_error _ _ _ _ (by
      simp only [hasQuantOrCall, Bool.or_eq_true] at h
      rcases h with (hx | hx) | hx
      · exact Or.inl (translate_error_of_hasQuantOrCall L c hx)
      · exact Or.inr (Or.inl (translate_error_of_hasQuantOrCall L l hx))
      · exact Or.inr (Or.inr (translate_error_of_hasQuantOrCall L r hx)))

/-- Claim C7: the SMT translator succeeds only on expressions free of
quantified subexpressions and function calls — for every expression
containing an `Exists`, `Forall` or `FunctionCall` subexpression,
translation raises the distinct `Unsupported` failure kind rather than
producing output. -/
theorem C7_quantifiers_and_calls_unsupported (L : Logic) (e : SmtExpr)
    (h : hasQuantOrCall e = true) : translate L e = .error .unsupported :=
  translate_error_of_hasQuantOrCall L e h

/-- A concrete logic for witnesses: the integer-arithmetic symbol choice. -/
def plainLogic : Logic :=
  ⟨"+", "div", ">=", ">", "<=", "<", "mod", "*", "-", "-", fun n =>
    toString n⟩

/-- Witness for C7_quantifiers_and_calls_unsupported: a conjunction
containing an existential quantifier translates to `Unsupported`. -/
theorem C7_quantifiers_and_calls_unsupported_witness :
    translate plainLogic
        (.andE (.exprid "x" 1) (.existsE "i" (.number 0))) =
      .error .unsupported :=
  C7_quantifiers_and_calls_unsupported plainLogic
    (.andE (.exprid "x" 1) (.existsE "i" (.number 0))) (by rfl)

/-- Claim C8, counterexample.  The claim reads: every identifier is emitted
as "s" followed by the decimal unique id of its resolved declaration, except
that the NAMES `true` and `false` are emitted as the solver literals and the
type name `boolean` as `Bool`.  `mangle` however lowercases the name before
comparing (translate.cc lines 166-174), so the identifier "True" — which is
none of the names `true`, `false`, `boolean` in this case-sensitive layer —
is emitted as the literal "true" rather than as "s3". -/
theorem C8_uppercase_true_not_mangled :
    translate plainLogic (.exprid "True" 3) = .ok "true"
      ∧ "true" ≠ "s" ++ toString 3 := by
  constructor
  · rfl
  · decide

/-- Claim C8, amended: identifier emission is by the case-INSENSITIVE name:
an identifier whose lowercased name is `true` or `false` is emitted as that
lowercase solver literal, one whose lowercased name is `boolean` is emitted
as `Bool`, and every other identifier is emitted as "s" followed by the
decimal unique id of its resolved declaration. -/
theorem C8_identifier_mangling (L : Logic) (name : String) (uid : Nat) :
    translate L (.exprid name uid) = .ok (mangle name uid)
    ∧ ((lowerStr name = "true" ∨ lowerStr name = "false") →
        mangle name uid = lowerStr name)
    ∧ (lowerStr name = "boolean" → mangle name uid = "Bool")
    ∧ (lowerStr name ≠ "true" → lowerStr name ≠ "false" →
        lowerStr name ≠ "boolean" →
        mangle name uid = "s" ++ toString uid) := by
  refine ⟨rfl, fun h => ?_, fun h => ?_, fun h1 h2 h3 => ?_⟩
  · rcases h with h | h <;> simp [mangle, h]
  · simp [mangle, h]
  · simp [mangle, h1, h2, h3]

/-- Witness for C8_identifier_mangling: ordinary, boolean-literal and
boolean-type identifiers. -/
theorem C8_identifier_mangling_witness :
    (mangle "x" 7 = "s" ++ toString 7)
    ∧ (mangle "TRUE" 7 = lowerStr "TRUE")
    ∧ (mangle "Boolean" 7 = "Bool") :=
  ⟨(C8_identifier_mangling plainLogic "x" 7).2.2.2 (by decide) (by decide)
      (by decide),
   (C8_identifier_mangling plainLogic "TRUE" 7).2.1 (Or.inl (by decide)),
   (C8_identifier_mangling plainLogic "Boolean" 7).2.2.1 (by decide)⟩

/-! ## Rule flattening: librumur/src/Rule.cc

Every rule kind inherits `name`, `quantifiers` and `aliases` from the base
class `Rule`; `Ruleset` and `AliasRule` additionally hold inner rules.
`Rule::flatten` (Rule.cc lines 58-60) returns a singleton clone;
`Ruleset::flatten` (lines 315-325) and `AliasRule::flatten` (lines 106-117)
loop over the inner rules, flatten each, and for each produced rule insert
each of their own quantifiers (respectively aliases) AT THE FRONT of the
produced rule's list, iterating over their own list front to back.
`Ptr<Rule>(clone())` has value semantics, so rules are plain values here;
a quantifier's bounds stand for its `from`/`to` expressions, which flatten
copies without inspecting. -/

/-- A ruleset quantifier: its name and `from`/`to` bounds. -/
structure Quantifier where
  name : String
  lo : Int
  hi : Int
deriving DecidableEq, Repr

/-- An alias declaration, as prepended by `AliasRule::flatten`. -/
structure AliasDecl where
  name : String
deriving DecidableEq, Repr

/-- The rule hierarchy of Rule.cc: simple rules, start states, property
rules, rulesets and alias-rules, each carrying the base-class `name`,
`quantifiers` and `aliases` members. -/
inductive Rule where
  | simple (name : String) (quantifiers : List Quantifier)
      (aliases : List AliasDecl)
  | startstate (name : String) (quantifiers : List Quantifier)
      (aliases : List AliasDecl)
  | propertyRule (name : String) (quantifiers : List Quantifier)
      (aliases : List AliasDecl)
  | ruleset (name : String) (quantifiers : List Quantifier)
      (aliases : List AliasDecl) (rules : List Rule)
  | aliasRule (name : String) (quantifiers : List Quantifier)
      (aliases : List AliasDecl) (rules : List Rule)

/-- The base-class `quantifiers` member. -/
def Rule.quantifiers : Rule → List Quantifier
  | .simple _ qs _ => qs
  | .startstate _ qs _ => qs
  | .propertyRule _ qs _ => qs
  | .ruleset _ qs _ _ => qs
  | .aliasRule _ qs _ _ => qs

/-- The base-class `aliases` member. -/
def Rule.aliases : Rule → List AliasDecl
  | .simple _ _ as => as
  | .startstate _ _ as => as
  | .propertyRule _ _ as => as
  | .ruleset _ _ as _ => as
  | .aliasRule _ _ as _ => as

/-- Assignment to the `quantifiers` member of a rule. -/
def Rule.withQuantifiers : Rule → List Quantifier → Rule
  | .simple n _ as, qs => .simple n qs as
  | .startstate n _ as, qs => .startstate n qs as
  | .propertyRule n _ as, qs => .propertyRule n qs as
  | .ruleset n _ as rs, qs => .ruleset n qs as rs
  | .aliasRule n _ as rs, qs => .aliasRule n qs as rs

/-- Assignment to the `aliases` member of a rule. -/
def Rule.withAliases : Rule → List AliasDecl → Rule
  | .simple n qs _, as => .simple n qs as
  | .startstate n qs _, as => .startstate n qs as
  | .propertyRule n qs _, as => .propertyRule n qs as
  | .ruleset n qs _ rs, as => .ruleset n qs as rs
  | .aliasRule n qs _ rs, as => .aliasRule n qs as rs

/-- The loop `for (x : xs) cur.insert(cur.begin(), x)`: each element of `xs`
is inserted at the front of `cur` in turn. -/
def insertEachAtFront {α : Type} (xs : List α) (cur : List α) : List α :=
  xs.foldl (fun acc x => x :: acc) cur

/-- `Rule::flatten` / `Ruleset::flatten` / `AliasRule::flatten`: base rules
flatten to a singleton clone of themselves; a ruleset flattens its inner
rules and inserts each of its quantifiers at the front of each produced
rule's quantifier list; an alias-rule does the same with (clones of) its
aliases. -/
def Rule.flatten : Rule → List Rule
  | .simple n qs as => [.simple n qs as]
  | .startstate n qs as => [.startstate n qs as]
  | .propertyRule n qs as => [.propertyRule n qs as]
  | .ruleset _ qs _ rs =>
      (rs.attach.map (fun x =>
        (Rule.flatten x.1).map (fun f =>
          f.withQuantifiers (insertEachAtFront qs f.quantifiers)))).flatten
  | .aliasRule _ _ as rs =>
      (rs.attach.map (fun x =>
        (Rule.flatten x.1).map (fun f =>
          f.withAliases (insertEachAtFront as f.aliases)))).flatten
decreasing_by
  all_goals
    have := List.sizeOf_lt_of_mem x.2
    simp_wf
    omega

theorem insertEachAtFront_eq_reverse_append {α : Type} (xs cur : List α) :
    insertEachAtFront xs cur = xs.reverse ++ cur := by
  induction xs generalizing cur with
  | nil => simp [insertEachAtFront]
  | cons x xs ih =>
    rw [insertEachAtFront, List.foldl_cons]
    rw [show List.foldl (fun acc y => y :: acc) (x :: cur) xs
          = insertEachAtFront xs (x :: cur) from rfl]
    rw [ih]
    simp

theorem attach_map_body {α β : Type} (l : List α) (g : α → β) :
    l.attach.map (fun x => g x.1) = l.map g :=
  List.attach_map_coe l g

theorem Rule.flatten_ruleset (n : String) (qs : List Quantifier)
    (as : List AliasDecl) (rs : List Rule) :
    Rule.flatten (.ruleset n qs as rs)
      = (rs.map (fun r =>
          (Rule.flatten r).map (fun f =>
            f.withQuantifiers (qs.reverse ++ f.quantifiers)))).flatten := by
  rw [Rule.flatten]
  rw [attach_map_body rs (fun r =>
    (Rule.flatten r).map (fun f =>
      f.withQuantifiers (insertEachAtFront qs f.quantifiers)))]
  simp only [insertEachAtFront_eq_reverse_append]

theorem Rule.flatten_aliasRule (n : String) (qs : List Quantifier)
    (as : List AliasDecl) (rs : List Rule) :
    Rule.flatten (.aliasRule n qs as rs)
      = (rs.map (fun r =>
          (Rule.flatten r).map (fun f =>
            f.withAliases (as.reverse ++ f.aliases)))).flatten := by
  rw [Rule.flatten]
  rw [attach_map_body rs (fun r =>
    (Rule.flatten r).map (fun f =>
      f.withAliases (insertEachAtFront as f.aliases)))]
  simp only [insertEachAtFront_eq_reverse_append]

/-- Claim C1, counterexample.  The claim states that a ruleset with
quantifier list [q1, ..., qk] contributes its quantifiers to each produced
rule in their original order.  `Ruleset::flatten` (Rule.cc lines 318-320)
however inserts each quantifier at the FRONT of the produced rule's list
while iterating q1, ..., qk front to back, which reverses them: a single
ruleset with quantifiers [i:1..2, j:0..1] over a quantifier-less simple rule
produces a rule with quantifier list [j:0..1, i:1..2], not [i:1..2, j:0..1]. -/
theorem C1_multi_quantifier_ruleset_reverses :
    Rule.flatten (.ruleset "" [⟨"i", 1, 2⟩, ⟨"j", 0, 1⟩] []
        [.simple "r" [] []])
      = [.simple "r" [⟨"j", 0, 1⟩, ⟨"i", 1, 2⟩] []]
    ∧ ([(⟨"j", 0, 1⟩ : Quantifier), ⟨"i", 1, 2⟩]
        ≠ [(⟨"i", 1, 2⟩ : Quantifier), ⟨"j", 0, 1⟩]) := by
  constructor
  · rw [Rule.flatten_ruleset]
    simp [Rule.flatten, Rule.withQuantifiers, Rule.quantifiers]
  · decide

/-- Claim C1, amended: a ruleset contributes its quantifiers to each rule
produced from an inner rule by inserting each at the front in turn, i.e. it
prepends them in REVERSED order to the inner rule's own quantifier list.
When every ruleset carries a single quantifier — as in nested rulesets with
one quantifier each — the produced order is outer-to-inner, and the nested
example `ruleset i : 1..2 do ruleset j : 0..1 do rule "r" ==> end end end`
does flatten to one simple rule with quantifier list [i:1..2, j:0..1]. -/
theorem C1_ruleset_prepends_reversed (n : String) (qs : List Quantifier)
    (as : List AliasDecl) (rs : List Rule) :
    Rule.flatten (.ruleset n qs as rs)
      = ((rs.map Rule.flatten).flatten).map (fun f =>
          f.withQuantifiers (qs.reverse ++ f.quantifiers))
    ∧ Rule.flatten (.ruleset "" [⟨"i", 1, 2⟩] []
        [.ruleset "" [⟨"j", 0, 1⟩] [] [.simple "r" [] []]])
      = [.simple "r" [⟨"i", 1, 2⟩, ⟨"j", 0, 1⟩] []] := by
  constructor
  · rw [Rule.flatten_ruleset, List.map_flatten, List.map_map]
    rfl
  · rw [Rule.flatten_ruleset]
    simp [Rule.flatten_ruleset, Rule.flatten, Rule.withQuantifiers,
      Rule.quantifiers]

/-! ## Node ids: librumur/include/rumur/Node.h

`struct Node` carries `location loc` and `size_t unique_id = SIZE_MAX`
(Node.h lines 12-15): a freshly constructed node's unique id is SIZE_MAX,
not 0.  The numbering pass itself is not under src/; following the spec
("assign unique ids (pre-order numbering)") it is modelled as a pre-order
pass handing out consecutive ids from a counter. -/

/-- A source location, per the spec's Location interface (file-id, begin and
end line/column); the parser's location.hh is outside the core. -/
structure Location where
  fileId : String
  beginLine : Nat
  beginCol : Nat
  endLine : Nat
  endCol : Nat
deriving DecidableEq, Repr

/-- `SIZE_MAX` for the 64-bit `size_t` the checker is compiled against. -/
def SIZE_MAX : Nat := 2 ^ 64 - 1

/-- The data members of `Node` (Node.h lines 12-15). -/
structure NodeHeader where
  loc : Location
  unique_id : Nat
deriving DecidableEq, Repr

/-- `Node(const location &loc_)`: the in-class initializer leaves
`unique_id = SIZE_MAX`. -/
def Node.construct (loc : Location) : NodeHeader := ⟨loc, SIZE_MAX⟩

/-- An AST viewed as a rose tree of node headers, the shape the numbering
pass works on. -/
inductive NodeTree where
  | node (header : NodeHeader) (children : List NodeTree)

mutual

/-- Modelled from the spec: the numbering pass ("assign unique ids
(pre-order numbering)"; the pass itself is not under src/) — assign the
counter to the node, then number the children left to right. -/
def numberFrom : NodeTree → Nat → NodeTree × Nat
  | .node hdr cs, c =>
      let p := numberList cs (c + 1)
      (.node ⟨hdr.loc, c⟩ p.1, p.2)

/-- Number a child list left to right, threading the counter. -/
def numberList : List NodeTree → Nat → List NodeTree × Nat
  | [], c => ([], c)
  | t :: ts, c =>
      let p := numberFrom t c
      let q := numberList ts p.2
      (p.1 :: q.1, q.2)

end

mutual

/-- The unique ids of a tree in pre-order. -/
def treeIds : NodeTree → List Nat
  | .node hdr cs => hdr.unique_id :: listIds cs

/-- The unique ids of a forest in pre-order. -/
def listIds : List NodeTree → List Nat
  | [] => []
  | t :: ts => treeIds t ++ listIds ts

end

mutual

theorem numberFrom_ids (t : NodeTree) (c : Nat) :
    treeIds (numberFrom t c).1 = List.range' c (treeIds t).length
      ∧ (numberFrom t c).2 = c + (treeIds t).length := by
  cases t with
  | node hdr cs =>
    have h := numberList_ids cs (c + 1)
    constructor
    · simp only [numberFrom, treeIds, List.length_cons, h.1]
      rw [List.range'_succ]
    · simp only [numberFrom, treeIds, List.length_cons, h.2]
      omega

theorem numberList_ids (ts : List NodeTree) (c : Nat) :
    listIds (numberList ts c).1 = List.range' c (listIds ts).length
      ∧ (numberList ts c).2 = c + (listIds ts).length := by
  cases ts with
  | nil => simp [numberList, listIds]
  | cons t ts =>
    have h1 := numberFrom_ids t c
    have h2 := numberList_ids ts (numberFrom t c).2
    rw [h1.2] at h2
    constructor
    · simp only [numberList, listIds, h1.1, h1.2, h2.1, List.length_append]
      have ha := List.range'_append c (treeIds t).length (listIds ts).length 1
      simp only [Nat.one_mul, Nat.mul_one] at ha
      rw [Nat.add_comm (treeIds t).length (listIds ts).length]
      exact ha
    · simp only [numberList, listIds, h1.2, h2.2, List.length_append]
      omega

end

/-- Claim C3, counterexample.  The claim states a node's unique id is 0 from
construction until the numbering pass assigns it; Node.h line 15 initializes
`size_t unique_id = SIZE_MAX`, so a freshly constructed node's unique id is
SIZE_MAX, which is not 0. -/
theorem C3_fresh_node_id_is_size_max :
    (Node.construct ⟨"model.m", 1, 1, 1, 1⟩).unique_id = SIZE_MAX
    ∧ SIZE_MAX ≠ 0 :=
  ⟨rfl, by decide⟩

/-- Claim C3, amended: a node's unique id is SIZE_MAX (not 0) from
construction until the numbering pass assigns it; after the pre-order
numbering pass every node's unique id is assigned (≠ SIZE_MAX, given that
the tree has at most SIZE_MAX nodes) and the ids are pairwise distinct
within the tree. -/
theorem C3_ids_distinct_after_numbering (loc : Location) (t : NodeTree)
    (h : (treeIds t).length ≤ SIZE_MAX) :
    (Node.construct loc).unique_id = SIZE_MAX
    ∧ (treeIds (numberFrom t 0).1).Nodup
    ∧ ∀ i ∈ treeIds (numberFrom t 0).1, i ≠ SIZE_MAX := by
  refine ⟨rfl, ?_, ?_⟩
  · rw [(numberFrom_ids t 0).1]
    exact List.nodup_range' _ _
  · intro i hi
    rw [(numberFrom_ids t 0).1, List.mem_range'_1] at hi
    omega

/-- Witness for C3_ids_distinct_after_numbering: a two-node tree. -/
theorem C3_ids_distinct_after_numbering_witness :
    (Node.construct ⟨"m", 1, 1, 1, 1⟩).unique_id = SIZE_MAX
    ∧ (treeIds (numberFrom (NodeTree.node ⟨⟨"m", 1, 1, 1, 1⟩, SIZE_MAX⟩
        [NodeTree.node ⟨⟨"m", 1, 2, 1, 3⟩, SIZE_MAX⟩ []]) 0).1).Nodup
    ∧ ∀ i ∈ treeIds (numberFrom (NodeTree.node ⟨⟨"m", 1, 1, 1, 1⟩, SIZE_MAX⟩
        [NodeTree.node ⟨⟨"m", 1, 2, 1, 3⟩, SIZE_MAX⟩ []]) 0).1,
        i ≠ SIZE_MAX :=
  C3_ids_distinct_after_numbering ⟨"m", 1, 1, 1, 1⟩
    (NodeTree.node ⟨⟨"m", 1, 1, 1, 1⟩, SIZE_MAX⟩
      [NodeTree.node ⟨⟨"m", 1, 2, 1, 3⟩, SIZE_MAX⟩ []])
    (by simp [treeIds, listIds, SIZE_MAX])

/-! ## Return-statement validation: librumur/src/Function.cc and Rule.cc

Two visitors check return statements:

* Rule.cc lines 24-46, used by `SimpleRule::validate` and
  `StartState::validate`: a `ConstTraversal` whose `visit(Function)`,
  `visit(FunctionCall)` and `visit(ProcedureCall)` overrides do nothing (so
  those subtrees are never entered) and whose `visit(Return)` throws if the
  return carries an expression.
* Function.cc lines 116-160, used by `Function::validate`: dispatched over
  each body statement; `visit(Return)` checks the expression against the
  function's return type.

The default handlers' recursion into children is traverse.cc, which is not
under src/; following the spec ("Default handler recurses into children",
back-links "must never be followed"), the model recurses into owned children
only.  A call's resolved callee is stored inside the call node here, standing
for the `function` back-link the traversal does not follow. -/

/-- Type expressions, with `resolve` following named references
(TypeExpr.h's `Range`, `Enum`, named reference, and the boolean type). -/
inductive TypeE where
  | range (lo hi : Int)
  | boolean
  | enum (members : List String)
  | named (name : String) (target : TypeE)
deriving DecidableEq, Repr

/-- `TypeExpr::resolve`: follow named references to the structural type. -/
def TypeE.resolve : TypeE → TypeE
  | .named _ target => target.resolve
  | .range lo hi => .range lo hi
  | .boolean => .boolean
  | .enum ms => .enum ms

/-- `isa<Range>`. -/
def TypeE.isRange : TypeE → Bool
  | .range _ _ => true
  | _ => false

mutual

/-- Expressions, as far as the return checkers inspect them: a numeric
literal (whose `type()` is nullptr), a typed identifier, and a function
call carrying its resolved callee. -/
inductive ExprV where
  | number (value : Int)
  | var (name : String) (type : TypeE)
  | funcCall (name : String) (callee : FuncV) (args : List ExprV)

/-- Statements: return, assignment, for, if (one clause plus else), while,
procedure call carrying its resolved callee. -/
inductive StmtV where
  | ret (expr : Option ExprV)
  | assign (lhs rhs : ExprV)
  | forS (body : List StmtV)
  | ifS (cond : ExprV) (thenB elseB : List StmtV)
  | whileS (cond : ExprV) (body : List StmtV)
  | procCall (name : String) (callee : FuncV) (args : List ExprV)

/-- A function or procedure: name, optional return type, body.  (Parameters
and local declarations hold no statements and are omitted.) -/
inductive FuncV where
  | mk (name : String) (returnType : Option TypeE) (body : List StmtV)

end

/-- The `return_type` member. -/
def FuncV.returnType : FuncV → Option TypeE
  | .mk _ rt _ => rt

/-- The `body` member. -/
def FuncV.body : FuncV → List StmtV
  | .mk _ _ b => b

/-- `Expr::type()`: nullptr (`none`) for a numeric literal, the declared
type for an identifier, the callee's return type for a call. -/
def ExprV.type : ExprV → Option TypeE
  | .number _ => none
  | .var _ t => some t
  | .funcCall _ callee _ => callee.returnType

/-- The message thrown by the rule/startstate return checker
(Rule.cc line 36). -/
def ruleReturnMsg : String :=
  "return statement in rule or startstate returns a value"

/-- The rule checker's visit over an expression: `visit(FunctionCall)` is
overridden to do nothing, and no other expression contains a statement, so
no error can arise. -/
def ruleCheckExpr : ExprV → Except String Unit
  | .number _ => .ok ()
  | .var _ _ => .ok ()
  | .funcCall _ _ _ => .ok ()

mutual

/-- The rule/startstate `ReturnChecker` (Rule.cc lines 24-46) on one
statement: `Return` with an expression throws; `ProcedureCall` (and via
`ruleCheckExpr` also `FunctionCall`) subtrees are skipped; everything else
recurses into its children. -/
def ruleCheckStmt : StmtV → Except String Unit
  | .ret e =>
      match e with
      | none => .ok ()
      | some _ => .error ruleReturnMsg
  | .assign lhs rhs =>
      match ruleCheckExpr lhs with
      | .ok _ => ruleCheckExpr rhs
      | .error e => .error e
  | .forS body => ruleCheckStmts body
  | .ifS cond thenB elseB =>
      match ruleCheckExpr cond with
      | .ok _ =>
          match ruleCheckStmts thenB with
          | .ok _ => ruleCheckStmts elseB
          | .error e => .error e
      | .error e => .error e
  | .whileS cond body =>
      match ruleCheckExpr cond with
      | .ok _ => ruleCheckStmts body
      | .error e => .error e
  | .procCall _ _ _ => .ok ()

/-- The rule/startstate checker over a statement list, first error wins. -/
def ruleCheckStmts : List StmtV → Except String Unit
  | [] => .ok ()
  | s :: rest =>
      match ruleCheckStmt s with
      | .ok _ => ruleCheckStmts rest
      | .error e => .error e

end

/-- A simple rule as far as return checking sees it (name, guard, local
declarations, body). -/
structure SimpleRuleV where
  name : String
  guard : Option ExprV
  decls : List (String × TypeE)
  body : List StmtV

/-- `SimpleRule::validate` (Rule.cc lines 175-177): run the return checker
over the rule — guard and declarations hold no return statements, so only
the body can raise. -/
def SimpleRuleV.validate (r : SimpleRuleV) : Except String Unit :=
  match (match r.guard with
         | none => Except.ok ()
         | some g => ruleCheckExpr g) with
  | .ok _ => ruleCheckStmts r.body
  | .error e => .error e

/-- A start state (a rule with no guard). -/
structure StartStateV where
  name : String
  decls : List (String × TypeE)
  body : List StmtV

/-- `StartState::validate` (Rule.cc lines 227-229). -/
def StartStateV.validate (r : StartStateV) : Except String Unit :=
  ruleCheckStmts r.body

/-- `visit(Return)` of the checker inside `Function::validate`
(Function.cc lines 129-151). -/
def checkReturnStmt (rt : Option TypeE) (e : Option ExprV) :
    Except String Unit :=
  match rt with
  | none =>
      match e with
      | none => .ok ()
      | some _ => .error "statement returns a value from a procedure"
  | some T =>
      match e with
      | none => .error "empty return statement in a function"
      | some ex =>
          match ex.type with
          | none =>
              if T.resolve.isRange then .ok ()
              else .error
                "returning a number from a function that does not return a range"
          | some te =>
              if te = T then .ok ()
              else .error "returning incompatible typed value from a function"

mutual

/-- The checker inside `Function::validate` on one statement: only
`visit(Return)` is overridden; the default recurses into owned children
(calls' resolved callees are back-links and are not followed). -/
def funcCheckStmt (rt : Option TypeE) : StmtV → Except String Unit
  | .ret e => checkReturnStmt rt e
  | .assign _ _ => .ok ()
  | .forS body => funcCheckStmts rt body
  | .ifS _ thenB elseB =>
      match funcCheckStmts rt thenB with
      | .ok _ => funcCheckStmts rt elseB
      | .error e => .error e
  | .whileS _ body => funcCheckStmts rt body
  | .procCall _ _ _ => .ok ()

/-- The function checker over a statement list, first error wins. -/
def funcCheckStmts (rt : Option TypeE) : List StmtV → Except String Unit
  | [] => .ok ()
  | s :: rest =>
      match funcCheckStmt rt s with
      | .ok _ => funcCheckStmts rt rest
      | .error e => .error e

end

/-- `Function::validate` (Function.cc lines 116-160): dispatch the return
checker over each body statement. -/
def FuncV.validate : FuncV → Except String Unit
  | .mk _ rt body => funcCheckStmts rt body

mutual

/-- The return statements of a statement that are visible to the rule
return checker: those not inside a `Function`, `FunctionCall` or
`ProcedureCall` subtree. -/
def visibleReturnsStmt : StmtV → List (Option ExprV)
  | .ret e => [e]
  | .assign _ _ => []
  | .forS body => visibleReturnsStmts body
  | .ifS _ thenB elseB =>
      visibleReturnsStmts thenB ++ visibleReturnsStmts elseB
  | .whileS _ body => visibleReturnsStmts body
  | .procCall _ _ _ => []

/-- Visible return statements of a statement list. -/
def visibleReturnsStmts : List StmtV → List (Option ExprV)
  | [] => []
  | s :: rest => visibleReturnsStmt s ++ visibleReturnsStmts rest

end

theorem ruleCheckExpr_ok (e : ExprV) : ruleCheckExpr e = .ok () := by
  cases e <;> rfl

mutual

theorem ruleCheckStmt_ok_iff (s : StmtV) :
    ruleCheckStmt s = .ok ()
      ↔ (visibleReturnsStmt s).all Option.isNone = true := by
  cases s with
  | ret e => cases e <;> simp [ruleCheckStmt, visibleReturnsStmt, ruleReturnMsg]
  | assign lhs rhs =>
    simp [ruleCheckStmt, visibleReturnsStmt, ruleCheckExpr_ok]
  | forS body =>
    simpa [ruleCheckStmt, visibleReturnsStmt] using ruleCheckStmts_ok_iff body
  | ifS cond thenB elseB =>
    have ht := ruleCheckStmts_ok_iff thenB
    have he := ruleCheckStmts_ok_iff elseB
    simp only [ruleCheckStmt, visibleReturnsStmt, ruleCheckExpr_ok,
      List.all_append, Bool.and_eq_true]
    cases hct : ruleCheckStmts thenB with
    | ok u =>
      cases u
      have hta := ht.mp hct
      simp [hta, he]
    | error m =>
      have htf : (visibleReturnsStmts thenB).all Option.isNone ≠ true := by
        intro hc
        rw [ht.mpr hc] at hct
        exact Except.noConfusion hct
      simp only [hct]
      simp [htf]
  | whileS cond body =>
    simpa [ruleCheckStmt, visibleReturnsStmt, ruleCheckExpr_ok] using
      ruleCheckStmts_ok_iff body
  | procCall n c args =>
    simp [ruleCheckStmt, visibleReturnsStmt]

theorem ruleCheckStmts_ok_iff (l : List StmtV) :
    ruleCheckStmts l = .ok ()
      ↔ (visibleReturnsStmts l).all Option.isNone = true := by
  cases l with
  | nil => simp [ruleCheckStmts, visibleReturnsStmts]
  | cons s rest =>
    have hs := ruleCheckStmt_ok_iff s
    have hr := ruleCheckStmts_ok_iff rest
    simp only [ruleCheckStmts, visibleReturnsStmts, List.all_append,
      Bool.and_eq_true]
    cases hcs : ruleCheckStmt s with
    | ok u =>
      cases u
      have hsa := hs.mp hcs
      simp [hsa, hr]
    | error m =>
      have hsf : (visibleReturnsStmt s).all Option.isNone ≠ true := by
        intro hc
        rw [hs.mpr hc] at hcs
        exact Except.noConfusion hcs
      simp only [hcs]
      simp [hsf]

end

mutual

theorem ruleCheckStmt_error_msg (s : StmtV) (m : String)
    (h : ruleCheckStmt s = .error m) : m = ruleReturnMsg := by
  cases s with
  | ret e =>
    cases e with
    | none => simp [ruleCheckStmt] at h
    | some ex =>
      simp only [ruleCheckStmt, Except.error.injEq] at h
      exact h.symm
  | assign lhs rhs => simp [ruleCheckStmt, ruleCheckExpr_ok] at h
  | forS body =>
    exact ruleCheckStmts_error_msg body m (by simpa [ruleCheckStmt] using h)
  | ifS cond thenB elseB =>
    simp only [ruleCheckStmt, ruleCheckExpr_ok] at h
    cases hct : ruleCheckStmts thenB with
    | ok u =>
      cases u
      rw [hct] at h
      exact ruleCheckStmts_error_msg elseB m h
    | error m2 =>
      rw [hct] at h
      simp only [Except.error.injEq] at h
      subst h
      exact ruleCheckStmts_error_msg thenB _ hct
  | whileS cond body =>
    simp only [ruleCheckStmt, ruleCheckExpr_ok] at h
    exact ruleCheckStmts_error_msg body m h
  | procCall n c args => simp [ruleCheckStmt] at h

theorem ruleCheckStmts_error_msg (l : List StmtV) (m : String)
    (h : ruleCheckStmts l = .error m) : m = ruleReturnMsg := by
  cases l with
  | nil => simp [ruleCheckStmts] at h
  | cons s rest =>
    simp only [ruleCheckStmts] at h
    cases hcs : ruleCheckStmt s with
    | ok u =>
      cases u
      rw [hcs] at h
      exact ruleCheckStmts_error_msg rest m h
    | error m2 =>
      rw [hcs] at h
      simp only [Except.error.injEq] at h
      subst h
      exact ruleCheckStmt_error_msg s _ hcs

end

theorem ruleCheckStmts_error_of_mem (l : List StmtV) (e : ExprV)
    (hm : StmtV.ret (some e) ∈ l) :
    ruleCheckStmts l = .error ruleReturnMsg := by
  induction l with
  | nil => cases hm
  | cons s rest ih =>
    simp only [ruleCheckStmts]
    rcases List.mem_cons.mp hm with hs | hs
    · subst hs
      rfl
    · cases hcs : ruleCheckStmt s with
      | ok u =>
        cases u
        exact ih hs
      | error m =>
        rw [ruleCheckStmt_error_msg s m hcs]

theorem SimpleRuleV.validate_eq_body_check (r : SimpleRuleV) :
    r.validate = ruleCheckStmts r.body := by
  rw [SimpleRuleV.validate]
  cases r.guard with
  | none => rfl
  | some g => simp [ruleCheckExpr_ok]

/-- Claim C5: a return statement with an expression inside a rule or start
state fails validation (with Rule.cc's "return statement in rule or
startstate returns a value"); a return inside a function must match the
function's return type, with the exception that a bare numeric expression
(whose `type()` is nullptr) is accepted exactly when the return type
resolves to a range; and a return with an expression inside a procedure (no
return type) fails with "statement returns a value from a procedure". -/
theorem C5_return_statement_validation :
    (∀ (r : SimpleRuleV) (e : ExprV), StmtV.ret (some e) ∈ r.body →
        r.validate = .error ruleReturnMsg)
    ∧ (∀ (r : StartStateV) (e : ExprV), StmtV.ret (some e) ∈ r.body →
        r.validate = .error ruleReturnMsg)
    ∧ (∀ (nm : String) (ex : ExprV),
        FuncV.validate (.mk nm none [.ret (some ex)])
          = .error "statement returns a value from a procedure")
    ∧ (∀ (nm : String) (T : TypeE) (ex : ExprV), ex.type = none →
        (FuncV.validate (.mk nm (some T) [.ret (some ex)]) = .ok ()
          ↔ T.resolve.isRange = true))
    ∧ (∀ (nm : String) (T : TypeE) (ex : ExprV) (te : TypeE),
        ex.type = some te →
        (FuncV.validate (.mk nm (some T) [.ret (some ex)]) = .ok ()
          ↔ te = T)) := by
  refine ⟨?_, ?_, ?_, ?_, ?_⟩
  · intro r e hm
    rw [SimpleRuleV.validate_eq_body_check]
    exact ruleCheckStmts_error_of_mem r.body e hm
  · intro r e hm
    rw [StartStateV.validate]
    exact ruleCheckStmts_error_of_mem r.body e hm
  · intro nm ex
    rfl
  · intro nm T ex ht
    simp only [FuncV.validate, funcCheckStmts, funcCheckStmt,
      checkReturnStmt, ht]
    cases hir : T.resolve.isRange <;> simp
  · intro nm T ex te ht
    simp only [FuncV.validate, funcCheckStmts, funcCheckStmt,
      checkReturnStmt, ht]
    by_cases hte : te = T <;> simp [hte]

/-- Witness for C5_return_statement_validation: a rule and a start state
whose body returns `5`; a procedure returning `5`; a range-returning
function returning the literal `5`; a boolean function returning a boolean
identifier. -/
theorem C5_return_statement_validation_witness :
    SimpleRuleV.validate ⟨"r", none, [], [.ret (some (.number 5))]⟩
        = .error ruleReturnMsg
    ∧ StartStateV.validate ⟨"s", [], [.ret (some (.number 5))]⟩
        = .error ruleReturnMsg
    ∧ FuncV.validate (.mk "p" none [.ret (some (.number 5))])
        = .error "statement returns a value from a procedure"
    ∧ (FuncV.validate (.mk "f" (some (.range 0 3))
          [.ret (some (.number 5))]) = .ok ()
        ↔ (TypeE.range 0 3).resolve.isRange = true)
    ∧ (FuncV.validate (.mk "g" (some .boolean)
          [.ret (some (.var "b" .boolean))]) = .ok ()
        ↔ TypeE.boolean = TypeE.boolean) :=
  ⟨C5_return_statement_validation.1 ⟨"r", none, [], [.ret (some (.number 5))]⟩
      (.number 5) (List.mem_singleton.mpr rfl),
   C5_return_statement_validation.2.1 ⟨"s", [], [.ret (some (.number 5))]⟩
      (.number 5) (List.mem_singleton.mpr rfl),
   C5_return_statement_validation.2.2.1 "p" (.number 5),
   C5_return_statement_validation.2.2.2.1 "f" (.range 0 3) (.number 5) rfl,
   C5_return_statement_validation.2.2.2.2 "g" .boolean (.var "b" .boolean)
      .boolean rfl⟩

/-- Claim C10: the return checker run by `SimpleRule::validate` and
`StartState::validate` does not descend into `Function`, `FunctionCall` or
`ProcedureCall` subtrees (their visit overrides in Rule.cc lines 30-32 do
nothing), so rule validation succeeds exactly when every return statement
OUTSIDE such subtrees has no expression — in particular a rule whose body
only calls a procedure whose own body contains `return 5` validates
cleanly. -/
theorem C10_rule_checker_skips_call_subtrees :
    (∀ r : SimpleRuleV, r.validate = .ok ()
        ↔ (visibleReturnsStmts r.body).all Option.isNone = true)
    ∧ (∀ r : StartStateV, r.validate = .ok ()
        ↔ (visibleReturnsStmts r.body).all Option.isNone = true)
    ∧ SimpleRuleV.validate
        ⟨"r", none, [],
          [.procCall "p" (.mk "p" none [.ret (some (.number 5))]) []]⟩
      = .ok () := by
  refine ⟨?_, ?_, ?_⟩
  · intro r
    rw [SimpleRuleV.validate_eq_body_check]
    exact ruleCheckStmts_ok_iff r.body
  · intro r
    rw [StartStateV.validate]
    exact ruleCheckStmts_ok_iff r.body
  · rfl

/-! ## Deep clone and structural equality: Rule.cc, Function.cc, Decl.cc

C++ `clone()` allocates a fresh object whose owned children are again
clones, copying `loc` and `unique_id` and, for back-links (`ExprID::value`),
the pointer value itself.  We model each heap object as a value carrying its
allocation identity (`alloc`, its address); `clone` threads a fresh-address
counter.  Two trees share mutable state exactly when they share an
allocation identity, and a heap write through an address mutates precisely
the nodes carrying that identity.

Copy constructors under src/: `Rule` (Rule.cc 52-56: name copied,
quantifiers copied by value, aliases cloned), `SimpleRule` (124-129: guard
cloned or null, `Ptr`-valued body copied — `Ptr` copies clone, per the
spec's "the clone shares no mutable state with the source" — and decls
cloned), `StartState` (184-188), `Function` (Function.cc 58-70: parameters,
return type, decls, body all cloned), `Parameter` (19-20: decl cloned),
`ConstDecl` / `TypeDecl` / `VarDecl` (Decl.cc 24-26, 65-67, 102-104: child
cloned).  Modelled from the spec: the copy constructors of `Quantifier`,
`AliasDecl`, `ExprID`, binary expressions, `Range` and `Return` (Expr.cc /
Stmt.cc / TypeExpr.cc are not under src/) deep-copy owned children and copy
the `ExprID` back-link by value, and `operator==` for those nodes is
structural, for identifiers by textual name, ignoring location, unique id
and back-links — all per spec sections 3 and 4.1. -/

/-- Binary operator kinds (the Add/Sub/... subclasses collapsed to a tag,
which is all `clone`/`operator==` distinguish). -/
inductive BinOp where
  | add | sub | mul | div | mod
  | conj | disj | implies
  | lt | leq | gt | geq
  | eqOp | neqOp
deriving DecidableEq, Repr

mutual

/-- AST nodes with explicit allocation identities.  Constructor arguments
mirror the C++ members; `valueRef` of `exprId` is the `value` back-link's
address (non-owning). -/
inductive CNode where
  | simpleRule (alloc : Nat) (loc : Location) (uid : Nat) (name : String)
      (quants : CList) (aliases : CList) (guard : COpt) (decls : CList)
      (body : CList)
  | startState (alloc : Nat) (loc : Location) (uid : Nat) (name : String)
      (quants : CList) (aliases : CList) (decls : CList) (body : CList)
  | function (alloc : Nat) (loc : Location) (uid : Nat) (name : String)
      (params : CList) (returnType : COpt) (decls : CList) (body : CList)
  | parameter (alloc : Nat) (loc : Location) (uid : Nat) (decl : CNode)
      (byRef : Bool)
  | constDecl (alloc : Nat) (loc : Location) (uid : Nat) (name : String)
      (value : CNode)
  | typeDecl (alloc : Nat) (loc : Location) (uid : Nat) (name : String)
      (value : CNode)
  | varDecl (alloc : Nat) (loc : Location) (uid : Nat) (name : String)
      (type : CNode) (localVar : Bool)
  | aliasDecl (alloc : Nat) (loc : Location) (uid : Nat) (name : String)
      (value : CNode)
  | quantifier (alloc : Nat) (loc : Location) (uid : Nat) (name : String)
      (lo hi : CNode)
  | number (alloc : Nat) (loc : Location) (uid : Nat) (value : Int)
  | exprId (alloc : Nat) (loc : Location) (uid : Nat) (idName : String)
      (valueRef : Nat)
  | binary (alloc : Nat) (loc : Location) (uid : Nat) (op : BinOp)
      (lhs rhs : CNode)
  | rangeType (alloc : Nat) (loc : Location) (uid : Nat) (lo hi : CNode)
  | retStmt (alloc : Nat) (loc : Location) (uid : Nat) (expr : COpt)

/-- A list of owned children (`std::vector` of owning pointers/values). -/
inductive CList where
  | nil
  | cons (head : CNode) (tail : CList)

/-- An optional owned child (a possibly-null owning pointer). -/
inductive COpt where
  | none
  | some (node : CNode)

end

mutual

/-- `clone()`: allocate a fresh address for the node, deep-copy owned
children left to right, copy `loc`, `unique_id` and all plain members, and
copy the `exprId` back-link address unchanged.  Returns the clone and the
next free address. -/
def cloneN : CNode → Nat → CNode × Nat
  | .simpleRule _ loc uid name quants aliases guard decls body, c =>
      let q := cloneL quants (c + 1)
      let al := cloneL aliases q.2
      let g := cloneO guard al.2
      let d := cloneL decls g.2
      let b := cloneL body d.2
      (.simpleRule c loc uid name q.1 al.1 g.1 d.1 b.1, b.2)
  | .startState _ loc uid name quants aliases decls body, c =>
      let q := cloneL quants (c + 1)
      let al := cloneL aliases q.2
      let d := cloneL decls al.2
      let b := cloneL body d.2
      (.startState c loc uid name q.1 al.1 d.1 b.1, b.2)
  | .function _ loc uid name params returnType decls body, c =>
      let p := cloneL params (c + 1)
      let rt := cloneO returnType p.2
      let d := cloneL decls rt.2
      let b := cloneL body d.2
      (.function c loc uid name p.1 rt.1 d.1 b.1, b.2)
  | .parameter _ loc uid decl byRef, c =>
      let d := cloneN decl (c + 1)
      (.parameter c loc uid d.1 byRef, d.2)
  | .constDecl _ loc uid name value, c =>
      let v := cloneN value (c + 1)
      (.constDecl c loc uid name v.1, v.2)
  | .typeDecl _ loc uid name value, c =>
      let v := cloneN value (c + 1)
      (.typeDecl c loc uid name v.1, v.2)
  | .varDecl _ loc uid name type localVar, c =>
      let t := cloneN type (c + 1)
      (.varDecl c loc uid name t.1 localVar, t.2)
  | .aliasDecl _ loc uid name value, c =>
      let v := cloneN value (c + 1)
      (.aliasDecl c loc uid name v.1, v.2)
  | .quantifier _ loc uid name lo hi, c =>
      let l := cloneN lo (c + 1)
      let h := cloneN hi l.2
      (.quantifier c loc uid name l.1 h.1, h.2)
  | .number _ loc uid value, c => (.number c loc uid value, c + 1)
  | .exprId _ loc uid idName valueRef, c =>
      (.exprId c loc uid idName valueRef, c + 1)
  | .binary _ loc uid op lhs rhs, c =>
      let l := cloneN lhs (c + 1)
      let r := cloneN rhs l.2
      (.binary c loc uid op l.1 r.1, r.2)
  | .rangeType _ loc uid lo hi, c =>
      let l := cloneN lo (c + 1)
      let h := cloneN hi l.2
      (.rangeType c loc uid l.1 h.1, h.2)
  | .retStmt _ loc uid expr, c =>
      let e := cloneO expr (c + 1)
      (.retStmt c loc uid e.1, e.2)

/-- Clone an owned child list left to right. -/
def cloneL : CList → Nat → CList × Nat
  | .nil, c => (.nil, c)
  | .cons h t, c =>
      let h2 := cloneN h c
      let t2 := cloneL t h2.2
      (.cons h2.1 t2.1, t2.2)

/-- Clone an optional owned child (`x == nullptr ? nullptr : x->clone()`). -/
def cloneO : COpt → Nat → COpt × Nat
  | .none, c => (.none, c)
  | .some n, c =>
      let n2 := cloneN n c
      (.some n2.1, n2.2)

end

mutual

/-- `operator==`: structural equality per the source — same dynamic type,
equal plain members, recursively equal owned children; ignores `alloc`
(the address), `loc` and `unique_id`; `exprId` compares the textual name
only, never the back-link. -/
def equalsN : CNode → CNode → Bool
  | .simpleRule _ _ _ n1 q1 a1 g1 d1 b1,
    .simpleRule _ _ _ n2 q2 a2 g2 d2 b2 =>
      n1 == n2 && equalsL q1 q2 && equalsL a1 a2 && equalsO g1 g2
        && equalsL d1 d2 && equalsL b1 b2
  | .startState _ _ _ n1 q1 a1 d1 b1, .startState _ _ _ n2 q2 a2 d2 b2 =>
      n1 == n2 && equalsL q1 q2 && equalsL a1 a2 && equalsL d1 d2
        && equalsL b1 b2
  | .function _ _ _ n1 p1 rt1 d1 b1, .function _ _ _ n2 p2 rt2 d2 b2 =>
      n1 == n2 && equalsL p1 p2 && equalsO rt1 rt2 && equalsL d1 d2
        && equalsL b1 b2
  | .parameter _ _ _ d1 r1, .parameter _ _ _ d2 r2 =>
      equalsN d1 d2 && r1 == r2
  | .constDecl _ _ _ n1 v1, .constDecl _ _ _ n2 v2 =>
      n1 == n2 && equalsN v1 v2
  | .typeDecl _ _ _ n1 v1, .typeDecl _ _ _ n2 v2 =>
      n1 == n2 && equalsN v1 v2
  | .varDecl _ _ _ n1 t1 l1, .varDecl _ _ _ n2 t2 l2 =>
      n1 == n2 && equalsN t1 t2 && l1 == l2
  | .aliasDecl _ _ _ n1 v1, .aliasDecl _ _ _ n2 v2 =>
      n1 == n2 && equalsN v1 v2
  | .quantifier _ _ _ n1 lo1 hi1, .quantifier _ _ _ n2 lo2 hi2 =>
      n1 == n2 && equalsN lo1 lo2 && equalsN hi1 hi2
  | .number _ _ _ v1, .number _ _ _ v2 => v1 == v2
  | .exprId _ _ _ n1 _, .exprId _ _ _ n2 _ => n1 == n2
  | .binary _ _ _ o1 l1 r1, .binary _ _ _ o2 l2 r2 =>
      o1 == o2 && equalsN l1 l2 && equalsN r1 r2
  | .rangeType _ _ _ lo1 hi1, .rangeType _ _ _ lo2 hi2 =>
      equalsN lo1 lo2 && equalsN hi1 hi2
  | .retStmt _ _ _ e1, .retStmt _ _ _ e2 => equalsO e1 e2
  | _, _ => false

/-- `vector_eq`: element-wise equality of owned child lists. -/
def equalsL : CList → CList → Bool
  | .nil, .nil => true
  | .cons h1 t1, .cons h2 t2 => equalsN h1 h2 && equalsL t1 t2
  | _, _ => false

/-- Null-pointer-matching equality of optional children. -/
def equalsO : COpt → COpt → Bool
  | .none, .none => true
  | .some x, .some y => equalsN x y
  | _, _ => false

end

mutual

/-- The allocation identities (addresses) of all objects owned by a
subtree; back-link targets are NOT owned and are not collected. -/
def allocsN : CNode → List Nat
  | .simpleRule a _ _ _ quants aliases guard decls body =>
      a :: (allocsL quants ++ allocsL aliases ++ allocsO guard
        ++ allocsL decls ++ allocsL body)
  | .startState a _ _ _ quants aliases decls body =>
      a :: (allocsL quants ++ allocsL aliases ++ allocsL decls
        ++ allocsL body)
  | .function a _ _ _ params returnType decls body =>
      a :: (allocsL params ++ allocsO returnType ++ allocsL decls
        ++ allocsL body)
  | .parameter a _ _ decl _ => a :: allocsN decl
  | .constDecl a _ _ _ value => a :: allocsN value
  | .typeDecl a _ _ _ value => a :: allocsN value
  | .varDecl a _ _ _ type _ => a :: allocsN type
  | .aliasDecl a _ _ _ value => a :: allocsN value
  | .quantifier a _ _ _ lo hi => a :: (allocsN lo ++ allocsN hi)
  | .number a _ _ _ => [a]
  | .exprId a _ _ _ _ => [a]
  | .binary a _ _ _ lhs rhs => a :: (allocsN lhs ++ allocsN rhs)
  | .rangeType a _ _ lo hi => a :: (allocsN lo ++ allocsN hi)
  | .retStmt a _ _ expr => a :: allocsO expr

/-- Owned allocation identities of a child list. -/
def allocsL : CList → List Nat
  | .nil => []
  | .cons h t => allocsN h ++ allocsL t

/-- Owned allocation identities of an optional child. -/
def allocsO : COpt → List Nat
  | .none => []
  | .some n => allocsN n

end

mutual

/-- A heap write through address `t`: overwrite the `unique_id` of the
object allocated at `t`, wherever that object sits in the tree.  A write to
an address the tree does not own leaves the tree unchanged. -/
def mutUidN (t u : Nat) : CNode → CNode
  | .simpleRule a loc uid name quants aliases guard decls body =>
      .simpleRule a loc (if a = t then u else uid) name (mutUidL t u quants)
        (mutUidL t u aliases) (mutUidO t u guard) (mutUidL t u decls)
        (mutUidL t u body)
  | .startState a loc uid name quants aliases decls body =>
      .startState a loc (if a = t then u else uid) name (mutUidL t u quants)
        (mutUidL t u aliases) (mutUidL t u decls) (mutUidL t u body)
  | .function a loc uid name params returnType decls body =>
      .function a loc (if a = t then u else uid) name (mutUidL t u params)
        (mutUidO t u returnType) (mutUidL t u decls) (mutUidL t u body)
  | .parameter a loc uid decl byRef =>
      .parameter a loc (if a = t then u else uid) (mutUidN t u decl) byRef
  | .constDecl a loc uid name value =>
      .constDecl a loc (if a = t then u else uid) name (mutUidN t u value)
  | .typeDecl a loc uid name value =>
      .typeDecl a loc (if a = t then u else uid) name (mutUidN t u value)
  | .varDecl a loc uid name type localVar =>
      .varDecl a loc (if a = t then u else uid) name (mutUidN t u type)
        localVar
  | .aliasDecl a loc uid name value =>
      .aliasDecl a loc (if a = t then u else uid) name (mutUidN t u value)
  | .quantifier a loc uid name lo hi =>
      .quantifier a loc (if a = t then u else uid) name (mutUidN t u lo)
        (mutUidN t u hi)
  | .number a loc uid value =>
      .number a loc (if a = t then u else uid) value
  | .exprId a loc uid idName valueRef =>
      .exprId a loc (if a = t then u else uid) idName valueRef
  | .binary a loc uid op lhs rhs =>
      .binary a loc (if a = t then u else uid) op (mutUidN t u lhs)
        (mutUidN t u rhs)
  | .rangeType a loc uid lo hi =>
      .rangeType a loc (if a = t then u else uid) (mutUidN t u lo)
        (mutUidN t u hi)
  | .retStmt a loc uid expr =>
      .retStmt a loc (if a = t then u else uid) (mutUidO t u expr)

/-- The write applied across a child list. -/
def mutUidL (t u : Nat) : CList → CList
  | .nil => .nil
  | .cons h tl => .cons (mutUidN t u h) (mutUidL t u tl)

/-- The write applied to an optional child. -/
def mutUidO (t u : Nat) : COpt → COpt
  | .none => .none
  | .some n => .some (mutUidN t u n)

end

mutual

/-- The back-link targets (`ExprID::value` addresses) of a subtree, in
pre-order. -/
def backRefsN : CNode → List Nat
  | .simpleRule _ _ _ _ quants aliases guard decls body =>
      backRefsL quants ++ backRefsL aliases ++ backRefsO guard
        ++ backRefsL decls ++ backRefsL body
  | .startState _ _ _ _ quants aliases decls body =>
      backRefsL quants ++ backRefsL aliases ++ backRefsL decls
        ++ backRefsL body
  | .function _ _ _ _ params returnType decls body =>
      backRefsL params ++ backRefsO returnType ++ backRefsL decls
        ++ backRefsL body
  | .parameter _ _ _ decl _ => backRefsN decl
  | .constDecl _ _ _ _ value => backRefsN value
  | .typeDecl _ _ _ _ value => backRefsN value
  | .varDecl _ _ _ _ type _ => backRefsN type
  | .aliasDecl _ _ _ _ value => backRefsN value
  | .quantifier _ _ _ _ lo hi => backRefsN lo ++ backRefsN hi
  | .number _ _ _ _ => []
  | .exprId _ _ _ _ valueRef => [valueRef]
  | .binary _ _ _ _ lhs rhs => backRefsN lhs ++ backRefsN rhs
  | .rangeType _ _ _ lo hi => backRefsN lo ++ backRefsN hi
  | .retStmt _ _ _ expr => backRefsO expr

/-- Back-link targets of a child list. -/
def backRefsL : CList → List Nat
  | .nil => []
  | .cons h t => backRefsN h ++ backRefsL t

/-- Back-link targets of an optional child. -/
def backRefsO : COpt → List Nat
  | .none => []
  | .some n => backRefsN n

end

mutual

theorem cloneN_counter_lt (n : CNode) (c : Nat) : c < (cloneN n c).2 := by
  cases n with
  | simpleRule a loc uid name quants aliases guard decls body =>
    have h1 := cloneL_counter_le quants (c + 1)
    have h2 := cloneL_counter_le aliases (cloneL quants (c + 1)).2
    have h3 := cloneO_counter_le guard
      (cloneL aliases (cloneL quants (c + 1)).2).2
    have h4 := cloneL_counter_le decls
      (cloneO guard (cloneL aliases (cloneL quants (c + 1)).2).2).2
    have h5 := cloneL_counter_le body
      (cloneL decls
        (cloneO guard (cloneL aliases (cloneL quants (c + 1)).2).2).2).2
    simp only [cloneN]
    omega
  | startState a loc uid name quants aliases decls body =>
    have h1 := cloneL_counter_le quants (c + 1)
    have h2 := cloneL_counter_le aliases (cloneL quants (c + 1)).2
    have h3 := cloneL_counter_le decls
      (cloneL aliases (cloneL quants (c + 1)).2).2
    have h4 := cloneL_counter_le body
      (cloneL decls (cloneL aliases (cloneL quants (c + 1)).2).2).2
    simp only [cloneN]
    omega
  | function a loc uid name params returnType decls body =>
    have h1 := cloneL_counter_le params (c + 1)
    have h2 := cloneO_counter_le returnType (cloneL params (c + 1)).2
    have h3 := cloneL_counter_le decls
      (cloneO returnType (cloneL params (c + 1)).2).2
    have h4 := cloneL_counter_le body
      (cloneL decls (cloneO returnType (cloneL params (c + 1)).2).2).2
    simp only [cloneN]
    omega
  | parameter a loc uid decl byRef =>
    have h1 := cloneN_counter_lt decl (c + 1)
    simp only [cloneN]
    omega
  | constDecl a loc uid name value =>
    have h1 := cloneN_counter_lt value (c + 1)
    simp only [cloneN]
    omega
  | typeDecl a loc uid name value =>
    have h1 := cloneN_counter_lt value (c + 1)
    simp only [cloneN]
    omega
  | varDecl a loc uid name type localVar =>
    have h1 := cloneN_counter_lt type (c + 1)
    simp only [cloneN]
    omega
  | aliasDecl a loc uid name value =>
    have h1 := cloneN_counter_lt value (c + 1)
    simp only [cloneN]
    omega
  | quantifier a loc uid name lo hi =>
    have h1 := cloneN_counter_lt lo (c + 1)
    have h2 := cloneN_counter_lt hi (cloneN lo (c + 1)).2
    simp only [cloneN]
    omega
  | number a loc uid value =>
    simp only [cloneN]
    omega
  | exprId a loc uid idName valueRef =>
    simp only [cloneN]
    omega
  | binary a loc uid op lhs rhs =>
    have h1 := cloneN_counter_lt lhs (c + 1)
    have h2 := cloneN_counter_lt rhs (cloneN lhs (c + 1)).2
    simp only [cloneN]
    omega
  | rangeType a loc uid lo hi =>
    have h1 := cloneN_counter_lt lo (c + 1)
    have h2 := cloneN_counter_lt hi (cloneN lo (c + 1)).2
    simp only [cloneN]
    omega
  | retStmt a loc uid expr =>
    have h1 := cloneO_counter_le expr (c + 1)
    simp only [cloneN]
    omega

theorem cloneL_counter_le (l : CList) (c : Nat) : c ≤ (cloneL l c).2 := by
  cases l with
  | nil => simp [cloneL]
  | cons h t =>
    have h1 := cloneN_counter_lt h c
    have h2 := cloneL_counter_le t (cloneN h c).2
    simp only [cloneL]
    omega

theorem cloneO_counter_le (o : COpt) (c : Nat) : c ≤ (cloneO o c).2 := by
  cases o with
  | none => simp [cloneO]
  | some n =>
    have h1 := cloneN_counter_lt n c
    simp only [cloneO]
    omega

end

mutual

theorem equalsN_cloneN (n : CNode) (c : Nat) :
    equalsN (cloneN n c).1 n = true := by
  cases n with
  | simpleRule a loc uid name quants aliases guard decls body =>
    simp [cloneN, equalsN, equalsL_cloneL quants, equalsL_cloneL aliases,
      equalsO_cloneO guard, equalsL_cloneL decls, equalsL_cloneL body]
  | startState a loc uid name quants aliases decls body =>
    simp [cloneN, equalsN, equalsL_cloneL quants, equalsL_cloneL aliases,
      equalsL_cloneL decls, equalsL_cloneL body]
  | function a loc uid name params returnType decls body =>
    simp [cloneN, equalsN, equalsL_cloneL params, equalsO_cloneO returnType,
      equalsL_cloneL decls, equalsL_cloneL body]
  | parameter a loc uid decl byRef =>
    simp [cloneN, equalsN, equalsN_cloneN decl]
  | constDecl a loc uid name value =>
    simp [cloneN, equalsN, equalsN_cloneN value]
  | typeDecl a loc uid name value =>
    simp [cloneN, equalsN, equalsN_cloneN value]
  | varDecl a loc uid name type localVar =>
    simp [cloneN, equalsN, equalsN_cloneN type]
  | aliasDecl a loc uid name value =>
    simp [cloneN, equalsN, equalsN_cloneN value]
  | quantifier a loc uid name lo hi =>
    simp [cloneN, equalsN, equalsN_cloneN lo, equalsN_cloneN hi]
  | number a loc uid value => simp [cloneN, equalsN]
  | exprId a loc uid idName valueRef => simp [cloneN, equalsN]
  | binary a loc uid op lhs rhs =>
    simp [cloneN, equalsN, equalsN_cloneN lhs, equalsN_cloneN rhs]
  | rangeType a loc uid lo hi =>
    simp [cloneN, equalsN, equalsN_cloneN lo, equalsN_cloneN hi]
  | retStmt a loc uid expr =>
    simp [cloneN, equalsN, equalsO_cloneO expr]

theorem equalsL_cloneL (l : CList) (c : Nat) :
    equalsL (cloneL l c).1 l = true := by
  cases l with
  | nil => simp [cloneL, equalsL]
  | cons h t =>
    simp [cloneL, equalsL, equalsN_cloneN h, equalsL_cloneL t]

theorem equalsO_cloneO (o : COpt) (c : Nat) :
    equalsO (cloneO o c).1 o = true := by
  cases o with
  | none => simp [cloneO, equalsO]
  | some n => simp [cloneO, equalsO, equalsN_cloneN n]

end

mutual

theorem cloneN_allocs_lb (n : CNode) (c : Nat) :
    ∀ x ∈ allocsN (cloneN n c).1, c ≤ x := by
  cases n with
  | simpleRule a loc uid name quants aliases guard decls body =>
    intro x hx
    have m1 := cloneL_counter_le quants (c + 1)
    have m2 := cloneL_counter_le aliases (cloneL quants (c + 1)).2
    have m3 := cloneO_counter_le guard (cloneL aliases (cloneL quants (c + 1)).2).2
    have m4 := cloneL_counter_le decls (cloneO guard (cloneL aliases (cloneL quants (c + 1)).2).2).2
    have m5 := cloneL_counter_le body (cloneL decls (cloneO guard (cloneL aliases (cloneL quants (c + 1)).2).2).2).2
    have l1 := cloneL_allocs_lb quants (c + 1)
    have l2 := cloneL_allocs_lb aliases (cloneL quants (c + 1)).2
    have l3 := cloneO_allocs_lb guard (cloneL aliases (cloneL quants (c + 1)).2).2
    have l4 := cloneL_allocs_lb decls (cloneO guard (cloneL aliases (cloneL quants (c + 1)).2).2).2
    have l5 := cloneL_allocs_lb body (cloneL decls (cloneO guard (cloneL aliases (cloneL quants (c + 1)).2).2).2).2
    simp only [cloneN, allocsN, List.mem_cons, List.mem_append] at hx
    have g0 : x = c → c ≤ x := fun he => by omega
    have g1 : x ∈ allocsL (cloneL quants (c + 1)).1 → c ≤ x := fun hm => by
      have := l1 x hm
      omega
    have g2 : x ∈ allocsL (cloneL aliases (cloneL quants (c + 1)).2).1 → c ≤ x := fun hm => by
      have := l2 x hm
      omega
    have g3 : x ∈ allocsO (cloneO guard (cloneL aliases (cloneL quants (c + 1)).2).2).1 → c ≤ x := fun hm => by
      have := l3 x hm
      omega
    have g4 : x ∈ allocsL (cloneL decls (cloneO guard (cloneL aliases (cloneL quants (c + 1)).2).2).2).1 → c ≤ x := fun hm => by
      have := l4 x hm
      omega
    have g5 : x ∈ allocsL (cloneL body (cloneL decls (cloneO guard (cloneL aliases (cloneL quants (c + 1)).2).2).2).2).1 → c ≤ x := fun hm => by
      have := l5 x hm
      omega
    tauto
  | startState a loc uid name quants aliases decls body =>
    intro x hx
    have m1 := cloneL_counter_le quants (c + 1)
    have m2 := cloneL_counter_le aliases (cloneL quants (c + 1)).2
    have m3 := cloneL_counter_le decls (cloneL aliases (cloneL quants (c + 1)).2).2
    have m4 := cloneL_counter_le body (cloneL decls (cloneL aliases (cloneL quants (c + 1)).2).2).2
    have l1 := cloneL_allocs_lb quants (c + 1)
    have l2 := cloneL_allocs_lb aliases (cloneL quants (c + 1)).2
    have l3 := cloneL_allocs_lb decls (cloneL aliases (cloneL quants (c + 1)).2).2
    have l4 := cloneL_allocs_lb body (cloneL decls (cloneL aliases (cloneL quants (c + 1)).2).2).2
    simp only [cloneN, allocsN, List.mem_cons, List.mem_append] at hx
    have g0 : x = c → c ≤ x := fun he => by omega
    have g1 : x ∈ allocsL (cloneL quants (c + 1)).1 → c ≤ x := fun hm => by
      have := l1 x hm
      omega
    have g2 : x ∈ allocsL (cloneL aliases (cloneL quants (c + 1)).2).1 → c ≤ x := fun hm => by
      have := l2 x hm
      omega
    have g3 : x ∈ allocsL (cloneL decls (cloneL aliases (cloneL quants (c + 1)).2).2).1 → c ≤ x := fun hm => by
      have := l3 x hm
      omega
    have g4 : x ∈ allocsL (cloneL body (cloneL decls (cloneL aliases (cloneL quants (c + 1)).2).2).2).1 → c ≤ x := fun hm => by
      have := l4 x hm
      omega
    tauto
  | function a loc uid name params returnType decls body =>
    intro x hx
    have m1 := cloneL_counter_le params (c + 1)
    have m2 := cloneO_counter_le returnType (cloneL params (c + 1)).2
    have m3 := cloneL_counter_le decls (cloneO returnType (cloneL params (c + 1)).2).2
    have m4 := cloneL_counter_le body (cloneL decls (cloneO returnType (cloneL params (c + 1)).2).2).2
    have l1 := cloneL_allocs_lb params (c + 1)
    have l2 := cloneO_allocs_lb returnType (cloneL params (c + 1)).2
    have l3 := cloneL_allocs_lb decls (cloneO returnType (cloneL params (c + 1)).2).2
    have l4 := cloneL_allocs_lb body (cloneL decls (cloneO returnType (cloneL params (c + 1)).2).2).2
    simp only [cloneN, allocsN, List.mem_cons, List.mem_append] at hx
    have g0 : x = c → c ≤ x := fun he => by omega
    have g1 : x ∈ allocsL (cloneL params (c + 1)).1 → c ≤ x := fun hm => by
      have := l1 x hm
      omega
    have g2 : x ∈ allocsO (cloneO returnType (cloneL params (c + 1)).2).1 → c ≤ x := fun hm => by
      have := l2 x hm
      omega
    have g3 : x ∈ allocsL (cloneL decls (cloneO returnType (cloneL params (c + 1)).2).2).1 → c ≤ x := fun hm => by
      have := l3 x hm
      omega
    have g4 : x ∈ allocsL (cloneL body (cloneL decls (cloneO returnType (cloneL params (c + 1)).2).2).2).1 → c ≤ x := fun hm => by
      have := l4 x hm
      omega
    tauto
  | parameter a loc uid decl byRef =>
    intro x hx
    have m1 := cloneN_counter_lt decl (c + 1)
    have l1 := cloneN_allocs_lb decl (c + 1)
    simp only [cloneN, allocsN, List.mem_cons, List.mem_append] at hx
    have g0 : x = c → c ≤ x := fun he => by omega
    have g1 : x ∈ allocsN (cloneN decl (c + 1)).1 → c ≤ x := fun hm => by
      have := l1 x hm
      omega
    tauto
  | constDecl a loc uid name value =>
    intro x hx
    have m1 := cloneN_counter_lt value (c + 1)
    have l1 := cloneN_allocs_lb value (c + 1)
    simp only [cloneN, allocsN, List.mem_cons, List.mem_append] at hx
    have g0 : x = c → c ≤ x := fun he => by omega
    have g1 : x ∈ allocsN (cloneN value (c + 1)).1 → c ≤ x := fun hm => by
      have := l1 x hm
      omega
    tauto
  | typeDecl a loc uid name value =>
    intro x hx
    have m1 := cloneN_counter_lt value (c + 1)
    have l1 := cloneN_allocs_lb value (c + 1)
    simp only [cloneN, allocsN, List.mem_cons, List.mem_append] at hx
    have g0 : x = c → c ≤ x := fun he => by omega
    have g1 : x ∈ allocsN (cloneN value (c + 1)).1 → c ≤ x := fun hm => by
      have := l1 x hm
      omega
    tauto
  | varDecl a loc uid name type localVar =>
    intro x hx
    have m1 := cloneN_counter_lt type (c + 1)
    have l1 := cloneN_allocs_lb type (c + 1)
    simp only [cloneN, allocsN, List.mem_cons, List.mem_append] at hx
    have g0 : x = c → c ≤ x := fun he => by omega
    have g1 : x ∈ allocsN (cloneN type (c + 1)).1 → c ≤ x := fun hm => by
      have := l1 x hm
      omega
    tauto
  | aliasDecl a loc uid name value =>
    intro x hx
    have m1 := cloneN_counter_lt value (c + 1)
    have l1 := cloneN_allocs_lb value (c + 1)
    simp only [cloneN, allocsN, List.mem_cons, List.mem_append] at hx
    have g0 : x = c → c ≤ x := fun he => by omega
    have g1 : x ∈ allocsN (cloneN value (c + 1)).1 → c ≤ x := fun hm => by
      have := l1 x hm
      omega
    tauto
  | quantifier a loc uid name lo hi =>
    intro x hx
    have m1 := cloneN_counter_lt lo (c + 1)
    have m2 := cloneN_counter_lt hi (cloneN lo (c + 1)).2
    have l1 := cloneN_allocs_lb lo (c + 1)
    have l2 := cloneN_allocs_lb hi (cloneN lo (c + 1)).2
    simp only [cloneN, allocsN, List.mem_cons, List.mem_append] at hx
    have g0 : x = c → c ≤ x := fun he => by omega
    have g1 : x ∈ allocsN (cloneN lo (c + 1)).1 → c ≤ x := fun hm => by
      have := l1 x hm
      omega
    have g2 : x ∈ allocsN (cloneN hi (cloneN lo (c + 1)).2).1 → c ≤ x := fun hm => by
      have := l2 x hm
      omega
    tauto
  | number a loc uid value =>
    intro x hx
    simp only [cloneN, allocsN, List.mem_singleton] at hx
    omega
  | exprId a loc uid idName valueRef =>
    intro x hx
    simp only [cloneN, allocsN, List.mem_singleton] at hx
    omega
  | binary a loc uid op lhs rhs =>
    intro x hx
    have m1 := cloneN_counter_lt lhs (c + 1)
    have m2 := cloneN_counter_lt rhs (cloneN lhs (c + 1)).2
    have l1 := cloneN_allocs_lb lhs (c + 1)
    have l2 := cloneN_allocs_lb rhs (cloneN lhs (c + 1)).2
    simp only [cloneN, allocsN, List.mem_cons, List.mem_append] at hx
    have g0 : x = c → c ≤ x := fun he => by omega
    have g1 : x ∈ allocsN (cloneN lhs (c + 1)).1 → c ≤ x := fun hm => by
      have := l1 x hm
      omega
    have g2 : x ∈ allocsN (cloneN rhs (cloneN lhs (c + 1)).2).1 → c ≤ x := fun hm => by
      have := l2 x hm
      omega
    tauto
  | rangeType a loc uid lo hi =>
    intro x hx
    have m1 := cloneN_counter_lt lo (c + 1)
    have m2 := cloneN_counter_lt hi (cloneN lo (c + 1)).2
    have l1 := cloneN_allocs_lb lo (c + 1)
    have l2 := cloneN_allocs_lb hi (cloneN lo (c + 1)).2
    simp only [cloneN, allocsN, List.mem_cons, List.mem_append] at hx
    have g0 : x = c → c ≤ x := fun he => by omega
    have g1 : x ∈ allocsN (cloneN lo (c + 1)).1 → c ≤ x := fun hm => by
      have := l1 x hm
      omega
    have g2 : x ∈ allocsN (cloneN hi (cloneN lo (c + 1)).2).1 → c ≤ x := fun hm => by
      have := l2 x hm
      omega
    tauto
  | retStmt a loc uid expr =>
    intro x hx
    have m1 := cloneO_counter_le expr (c + 1)
    have l1 := cloneO_allocs_lb expr (c + 1)
    simp only [cloneN, allocsN, List.mem_cons, List.mem_append] at hx
    have g0 : x = c → c ≤ x := fun he => by omega
    have g1 : x ∈ allocsO (cloneO expr (c + 1)).1 → c ≤ x := fun hm => by
      have := l1 x hm
      omega
    tauto

theorem cloneL_allocs_lb (l : CList) (c : Nat) :
    ∀ x ∈ allocsL (cloneL l c).1, c ≤ x := by
  cases l with
  | nil =>
    intro x hx
    simp [cloneL, allocsL] at hx
  | cons h t =>
    intro x hx
    have m1 := cloneN_counter_lt h c
    have l1 := cloneN_allocs_lb h c
    have l2 := cloneL_allocs_lb t (cloneN h c).2
    simp only [cloneL, allocsL, List.mem_append] at hx
    have g1 : x ∈ allocsN (cloneN h c).1 → c ≤ x := fun hm => l1 x hm
    have g2 : x ∈ allocsL (cloneL t (cloneN h c).2).1 → c ≤ x := fun hm => by
      have := l2 x hm
      omega
    tauto

theorem cloneO_allocs_lb (o : COpt) (c : Nat) :
    ∀ x ∈ allocsO (cloneO o c).1, c ≤ x := by
  cases o with
  | none =>
    intro x hx
    simp [cloneO, allocsO] at hx
  | some n =>
    intro x hx
    simp only [cloneO, allocsO] at hx
    exact cloneN_allocs_lb n c x hx


end

mutual

theorem mutUidN_noop (t u : Nat) (n : CNode) (h : t ∉ allocsN n) :
    mutUidN t u n = n := by
  cases n with
  | simpleRule a loc uid name quants aliases guard decls body =>
    have h0 : ¬ (a = t) := fun he => h (by simp [allocsN, he])
    have h1 : t ∉ allocsL quants := fun hm => h (by simp [allocsN, hm])
    have h2 : t ∉ allocsL aliases := fun hm => h (by simp [allocsN, hm])
    have h3 : t ∉ allocsO guard := fun hm => h (by simp [allocsN, hm])
    have h4 : t ∉ allocsL decls := fun hm => h (by simp [allocsN, hm])
    have h5 : t ∉ allocsL body := fun hm => h (by simp [allocsN, hm])
    simp [mutUidN, h0, mutUidL_noop t u quants h1, mutUidL_noop t u aliases h2, mutUidO_noop t u guard h3, mutUidL_noop t u decls h4, mutUidL_noop t u body h5]
  | startState a loc uid name quants aliases decls body =>
    have h0 : ¬ (a = t) := fun he => h (by simp [allocsN, he])
    have h1 : t ∉ allocsL quants := fun hm => h (by simp [allocsN, hm])
    have h2 : t ∉ allocsL aliases := fun hm => h (by simp [allocsN, hm])
    have h3 : t ∉ allocsL decls := fun hm => h (by simp [allocsN, hm])
    have h4 : t ∉ allocsL body := fun hm => h (by simp [allocsN, hm])
    simp [mutUidN, h0, mutUidL_noop t u quants h1, mutUidL_noop t u aliases h2, mutUidL_noop t u decls h3, mutUidL_noop t u body h4]
  | function a loc uid name params returnType decls body =>
    have h0 : ¬ (a = t) := fun he => h (by simp [allocsN, he])
    have h1 : t ∉ allocsL params := fun hm => h (by simp [allocsN, hm])
    have h2 : t ∉ allocsO returnType := fun hm => h (by simp [allocsN, hm])
    have h3 : t ∉ allocsL decls := fun hm => h (by simp [allocsN, hm])
    have h4 : t ∉ allocsL body := fun hm => h (by simp [allocsN, hm])
    simp [mutUidN, h0, mutUidL_noop t u params h1, mutUidO_noop t u returnType h2, mutUidL_noop t u decls h3, mutUidL_noop t u body h4]
  | parameter a loc uid decl byRef =>
    have h0 : ¬ (a = t) := fun he => h (by simp [allocsN, he])
    have h1 : t ∉ allocsN decl := fun hm => h (by simp [allocsN, hm])
    simp [mutUidN, h0, mutUidN_noop t u decl h1]
  | constDecl a loc uid name value =>
    have h0 : ¬ (a = t) := fun he => h (by simp [allocsN, he])
    have h1 : t ∉ allocsN value := fun hm => h (by simp [allocsN, hm])
    simp [mutUidN, h0, mutUidN_noop t u value h1]
  | typeDecl a loc uid name value =>
    have h0 : ¬ (a = t) := fun he => h (by simp [allocsN, he])
    have h1 : t ∉ allocsN value := fun hm => h (by simp [allocsN, hm])
    simp [mutUidN, h0, mutUidN_noop t u value h1]
  | varDecl a loc uid name type localVar =>
    have h0 : ¬ (a = t) := fun he => h (by simp [allocsN, he])
    have h1 : t ∉ allocsN type := fun hm => h (by simp [allocsN, hm])
    simp [mutUidN, h0, mutUidN_noop t u type h1]
  | aliasDecl a loc uid name value =>
    have h0 : ¬ (a = t) := fun he => h (by simp [allocsN, he])
    have h1 : t ∉ allocsN value := fun hm => h (by simp [allocsN, hm])
    simp [mutUidN, h0, mutUidN_noop t u value h1]
  | quantifier a loc uid name lo hi =>
    have h0 : ¬ (a = t) := fun he => h (by simp [allocsN, he])
    have h1 : t ∉ allocsN lo := fun hm => h (by simp [allocsN, hm])
    have h2 : t ∉ allocsN hi := fun hm => h (by simp [allocsN, hm])
    simp [mutUidN, h0, mutUidN_noop t u lo h1, mutUidN_noop t u hi h2]
  | number a loc uid value =>
    have h0 : ¬ (a = t) := fun he => h (by simp [allocsN, he])
    simp [mutUidN, h0]
  | exprId a loc uid idName valueRef =>
    have h0 : ¬ (a = t) := fun he => h (by simp [allocsN, he])
    simp [mutUidN, h0]
  | binary a loc uid op lhs rhs =>
    have h0 : ¬ (a = t) := fun he => h (by simp [allocsN, he])
    have h1 : t ∉ allocsN lhs := fun hm => h (by simp [allocsN, hm])
    have h2 : t ∉ allocsN rhs := fun hm => h (by simp [allocsN, hm])
    simp [mutUidN, h0, mutUidN_noop t u lhs h1, mutUidN_noop t u rhs h2]
  | rangeType a loc uid lo hi =>
    have h0 : ¬ (a = t) := fun he => h (by simp [allocsN, he])
    have h1 : t ∉ allocsN lo := fun hm => h (by simp [allocsN, hm])
    have h2 : t ∉ allocsN hi := fun hm => h (by simp [allocsN, hm])
    simp [mutUidN, h0, mutUidN_noop t u lo h1, mutUidN_noop t u hi h2]
  | retStmt a loc uid expr =>
    have h0 : ¬ (a = t) := fun he => h (by simp [allocsN, he])
    have h1 : t ∉ allocsO expr := fun hm => h (by simp [allocsN, hm])
    simp [mutUidN, h0, mutUidO_noop t u expr h1]

theorem mutUidL_noop (t u : Nat) (l : CList) (h : t ∉ allocsL l) :
    mutUidL t u l = l := by
  cases l with
  | nil => rfl
  | cons hd tl =>
    have h1 : t ∉ allocsN hd := fun hm => h (by simp [allocsL, hm])
    have h2 : t ∉ allocsL tl := fun hm => h (by simp [allocsL, hm])
    simp [mutUidL, mutUidN_noop t u hd h1, mutUidL_noop t u tl h2]

theorem mutUidO_noop (t u : Nat) (o : COpt) (h : t ∉ allocsO o) :
    mutUidO t u o = o := by
  cases o with
  | none => rfl
  | some n =>
    have h1 : t ∉ allocsN n := fun hm => h (by simp [allocsO, hm])
    simp [mutUidO, mutUidN_noop t u n h1]

end

mutual

theorem backRefsN_cloneN (n : CNode) (c : Nat) :
    backRefsN (cloneN n c).1 = backRefsN n := by
  cases n with
  | simpleRule a loc uid name quants aliases guard decls body =>
    simp [cloneN, backRefsN, backRefsL_cloneL quants, backRefsL_cloneL aliases, backRefsO_cloneO guard, backRefsL_cloneL decls, backRefsL_cloneL body]
  | startState a loc uid name quants aliases decls body =>
    simp [cloneN, backRefsN, backRefsL_cloneL quants, backRefsL_cloneL aliases, backRefsL_cloneL decls, backRefsL_cloneL body]
  | function a loc uid name params returnType decls body =>
    simp [cloneN, backRefsN, backRefsL_cloneL params, backRefsO_cloneO returnType, backRefsL_cloneL decls, backRefsL_cloneL body]
  | parameter a loc uid decl byRef =>
    simp [cloneN, backRefsN, backRefsN_cloneN decl]
  | constDecl a loc uid name value =>
    simp [cloneN, backRefsN, backRefsN_cloneN value]
  | typeDecl a loc uid name value =>
    simp [cloneN, backRefsN, backRefsN_cloneN value]
  | varDecl a loc uid name type localVar =>
    simp [cloneN, backRefsN, backRefsN_cloneN type]
  | aliasDecl a loc uid name value =>
    simp [cloneN, backRefsN, backRefsN_cloneN value]
  | quantifier a loc uid name lo hi =>
    simp [cloneN, backRefsN, backRefsN_cloneN lo, backRefsN_cloneN hi]
  | number a loc uid value =>
    simp [cloneN, backRefsN]
  | exprId a loc uid idName valueRef =>
    simp [cloneN, backRefsN]
  | binary a loc uid op lhs rhs =>
    simp [cloneN, backRefsN, backRefsN_cloneN lhs, backRefsN_cloneN rhs]
  | rangeType a loc uid lo hi =>
    simp [cloneN, backRefsN, backRefsN_cloneN lo, backRefsN_cloneN hi]
  | retStmt a loc uid expr =>
    simp [cloneN, backRefsN, backRefsO_cloneO expr]

theorem backRefsL_cloneL (l : CList) (c : Nat) :
    backRefsL (cloneL l c).1 = backRefsL l := by
  cases l with
  | nil => simp [cloneL, backRefsL]
  | cons h t =>
    simp [cloneL, backRefsL, backRefsN_cloneN h, backRefsL_cloneL t]

theorem backRefsO_cloneO (o : COpt) (c : Nat) :
    backRefsO (cloneO o c).1 = backRefsO o := by
  cases o with
  | none => simp [cloneO, backRefsO]
  | some n => simp [cloneO, backRefsO, backRefsN_cloneN n]

end

/-- Claim C4: for every AST node n cloned with a fresh address supply
(every address the clone allocates is beyond those n owns, as on the C++
heap), `n.clone().equals(n)` holds, and the clone shares no mutable state
with n: the clone's allocation identities are disjoint from n's, so a heap
write through any address owned by the clone — here, overwriting the
`unique_id` of the object at that address — leaves n unchanged.  Back-links
excepted: they are copied by value and still point at the same target
declarations (the clone's back-link targets coincide with n's). -/
theorem C4_clone_equal_and_independent (n : CNode) (c : Nat)
    (h : ∀ a ∈ allocsN n, a < c) :
    equalsN (cloneN n c).1 n = true
    ∧ (∀ t ∈ allocsN (cloneN n c).1, t ∉ allocsN n)
    ∧ (∀ t ∈ allocsN (cloneN n c).1, ∀ u, mutUidN t u n = n)
    ∧ backRefsN (cloneN n c).1 = backRefsN n := by
  have hd : ∀ t ∈ allocsN (cloneN n c).1, t ∉ allocsN n := by
    intro t ht hmem
    have h1 := cloneN_allocs_lb n c t ht
    have h2 := h t hmem
    omega
  exact ⟨equalsN_cloneN n c, hd,
    fun t ht u => mutUidN_noop t u n (hd t ht), backRefsN_cloneN n c⟩

/-- A sample rule subtree for the clone witness: a guarded simple rule with
one quantifier, a local range-typed variable declaration and a bare return;
its guard contains an identifier whose back-link points at declaration
address 100.  Addresses 0-11 are in use, so 12 is the next free address. -/
def sampleRule : CNode :=
  .simpleRule 0 ⟨"m", 1, 1, 1, 1⟩ 20 "r"
    (.cons (.quantifier 1 ⟨"m", 1, 2, 1, 3⟩ 21 "i"
        (.number 2 ⟨"m", 1, 4, 1, 5⟩ 22 1)
        (.number 3 ⟨"m", 1, 6, 1, 7⟩ 23 2)) .nil)
    .nil
    (.some (.binary 4 ⟨"m", 2, 1, 2, 5⟩ 24 .lt
      (.exprId 5 ⟨"m", 2, 1, 2, 2⟩ 25 "x" 100)
      (.number 6 ⟨"m", 2, 4, 2, 5⟩ 26 3)))
    (.cons (.varDecl 7 ⟨"m", 3, 1, 3, 9⟩ 27 "y"
        (.rangeType 8 ⟨"m", 3, 5, 3, 9⟩ 28
          (.number 9 ⟨"m", 3, 5, 3, 6⟩ 29 0)
          (.number 10 ⟨"m", 3, 8, 3, 9⟩ 30 5)) true) .nil)
    (.cons (.retStmt 11 ⟨"m", 4, 1, 4, 7⟩ 31 .none) .nil)

/-- Witness for C4_clone_equal_and_independent, at the sample rule with
fresh addresses from 12. -/
theorem C4_clone_equal_and_independent_witness :
    equalsN (cloneN sampleRule 12).1 sampleRule = true
    ∧ backRefsN (cloneN sampleRule 12).1 = backRefsN sampleRule :=
  ⟨(C4_clone_equal_and_independent sampleRule 12 (by
      intro a ha
      simp [sampleRule, allocsN, allocsL, allocsO] at ha
      omega)).1,
   (C4_clone_equal_and_independent sampleRule 12 (by
      intro a ha
      simp [sampleRule, allocsN, allocsL, allocsO] at ha
      omega)).2.2.2⟩

end Rumur
